import Mathlib

/-!
Verification development for the onetools-py repository.

The Python sources are shallowly embedded: every pure fragment of the code
that a claim depends on is translated to an executable Lean definition, and
the statements proved below are about those definitions.  The embedding keeps
the source names (snake_case) where Lean allows it; stateful effects (the
SQLite store, the ODBC driver) are passed in explicitly as values describing
the observable result of the corresponding I/O call.

All executable definitions use structural recursion (fuel where the source
recursion is unbounded), so the kernel can evaluate them on concrete inputs.
-/

namespace OneTools

/-! ## Python string primitives

Character-level models of the Python `str` operations the sources use.
`\s` and `\w` are modelled at ASCII level: every string the claims exercise
is ASCII, and Python with `re.IGNORECASE` behaves identically there.
-/

/-- Python `\s` (ASCII range): space, tab, newline, carriage return,
vertical tab, form feed. -/
def pySpace (c : Char) : Bool :=
  c = ' ' || c = '\t' || c = '\n' || c = '\r' || c = '\x0b' || c = '\x0c'

/-- Python `\w` (ASCII range): letters, digits, underscore. -/
def wordChar (c : Char) : Bool :=
  (c ≥ 'a' && c ≤ 'z') || (c ≥ 'A' && c ≤ 'Z') || (c ≥ '0' && c ≤ '9') || c = '_'

/-- The single-quote character, used pervasively by the SQL templates. -/
def sq : Char := Char.ofNat 39

/-- Case-insensitive character comparison (Python `re.IGNORECASE`). -/
def ciEq (a b : Char) : Bool := a.toLower = b.toLower

/-- Case-sensitive list prefix test (Python slicing / `str.startswith`). -/
def isPre : List Char → List Char → Bool
  | [], _ => true
  | _ :: _, [] => false
  | a :: as, b :: bs => a = b && isPre as bs

/-- Case-insensitive list prefix test. -/
def ciIsPre : List Char → List Char → Bool
  | [], _ => true
  | _ :: _, [] => false
  | a :: as, b :: bs => ciEq a b && ciIsPre as bs

/-- Python `sub in s` (case-sensitive substring test). -/
def containsList (pat : List Char) : List Char → Bool
  | [] => pat.isEmpty
  | c :: rest => isPre pat (c :: rest) || containsList pat rest

/-- One step of Python `str.replace`: `old` is never empty at the call sites
in this repository. Scans left to right, replaces non-overlapping
occurrences, resumes after each replacement (fuel bounds the scan). -/
def pyReplaceFuel (old new : List Char) : Nat → List Char → List Char
  | 0, s => s
  | _ + 1, [] => []
  | fuel + 1, c :: rest =>
    if isPre old (c :: rest) then
      new ++ pyReplaceFuel old new fuel (List.drop (old.length - 1) rest)
    else
      c :: pyReplaceFuel old new fuel rest

/-- Python `str.replace(old, new)` (all occurrences). -/
def pyReplaceL (old new s : List Char) : List Char :=
  pyReplaceFuel old new (s.length + 1) s

/-- Python `str.replace` on `String`s. -/
def pyReplace (s old new : String) : String :=
  String.mk (pyReplaceL old.data new.data s.data)

/-- Helper for Python `str.split()` (no separator): accumulates the current
word reversed. -/
def wordsAux : List Char → List Char → List (List Char)
  | [], acc => if acc.isEmpty then [] else [acc.reverse]
  | c :: rest, acc =>
    if pySpace c then
      if acc.isEmpty then wordsAux rest [] else acc.reverse :: wordsAux rest []
    else
      wordsAux rest (c :: acc)

/-- Python `str.split()` with no arguments: runs of whitespace separate
words, leading/trailing whitespace dropped. -/
def pyWords (s : List Char) : List (List Char) := wordsAux s []

/-- Python `' '.join(s.split())`: collapse every whitespace run to one
space. -/
def joinSplit (s : List Char) : List Char := List.intercalate [' '] (pyWords s)

/-- Python `str.strip()` (whitespace on both ends). -/
def pyStripL (s : List Char) : List Char :=
  ((s.dropWhile pySpace).reverse.dropWhile pySpace).reverse

/-- Python `str.strip()` on `String`s. -/
def pyStrip (s : String) : String := String.mk (pyStripL s.data)

/-- Python `str.upper()` (ASCII). -/
def pyUpperL (s : List Char) : List Char := s.map Char.toUpper

/-- Python `s.split(sep)` for a one-character separator. -/
def splitOnChar (sep : Char) : List Char → List (List Char)
  | [] => [[]]
  | c :: rest =>
    let r := splitOnChar sep rest
    if c = sep then [] :: r
    else
      match r with
      | [] => [[c]]
      | h :: t => (c :: h) :: t

/-- Python `str.find(sub)`: index of the first occurrence, `-1` if none. -/
def pyFindL (pat : List Char) : List Char → Int
  | [] => if pat.isEmpty then 0 else -1
  | c :: rest =>
    if isPre pat (c :: rest) then 0
    else
      let r := pyFindL pat rest
      if r < 0 then -1 else r + 1

/-! ## A small regex engine

Backtracking matcher for exactly the constructs the repository's patterns
use: character classes, case-insensitive literals, sequencing, ordered
alternation, greedy and lazy repetition of a character class, lookahead and
the `$` anchor.  Match preference order (leftmost position, then greedy /
left-alternative first) follows Python's `re`.
-/

/-- Regular expressions as used by the repository's Python code.
Repetition is only ever applied to single-character classes there, which
keeps the matcher structurally recursive.  `eos` models Python's `$` as
end-of-text (the SQL texts handled here carry no trailing newline, where
Python's `$` would also match just before it). -/
inductive RE where
  | eps : RE
  | ch (p : Char → Bool) : RE
  | seq (a b : RE) : RE
  | alt (a b : RE) : RE
  | star (p : Char → Bool) (greedy : Bool) : RE
  | look (a : RE) : RE
  | eos : RE

/-- Greedy Kleene star over a character class, in continuation style:
consume as much as possible, backtracking into the continuation `k`. -/
def starG (p : Char → Bool) (k : List Char → Option (List Char)) :
    List Char → Option (List Char)
  | [] => k []
  | c :: rest =>
    if p c then
      match starG p k rest with
      | some r => some r
      | none => k (c :: rest)
    else k (c :: rest)

/-- Lazy (non-greedy) Kleene star over a character class. -/
def starN (p : Char → Bool) (k : List Char → Option (List Char)) :
    List Char → Option (List Char)
  | [] => k []
  | c :: rest =>
    match k (c :: rest) with
    | some r => some r
    | none => if p c then starN p k rest else none

/-- The matcher: `reMatch r s k` tries to match `r` at the head of `s` and
passes the remainder to `k`; the first success in Python's preference order
wins.  Returns the remainder after the full match. -/
def reMatch : RE → List Char → (List Char → Option (List Char)) →
    Option (List Char)
  | .eps, s, k => k s
  | .ch p, s, k =>
    match s with
    | [] => none
    | c :: rest => if p c then k rest else none
  | .seq a b, s, k => reMatch a s (fun rest => reMatch b rest k)
  | .alt a b, s, k =>
    match reMatch a s k with
    | some r => some r
    | none => reMatch b s k
  | .star p g, s, k => if g then starG p k s else starN p k s
  | .look a, s, k =>
    match reMatch a s some with
    | some _ => k s
    | none => none
  | .eos, s, k =>
    match s with
    | [] => k []
    | _ :: _ => none

/-- Sequence a list of regexes. -/
def rcat (rs : List RE) : RE := rs.foldr RE.seq RE.eps

/-- Ordered alternation of a list of regexes (never called on `[]`). -/
def raltList : List RE → RE
  | [] => RE.eps
  | [r] => r
  | r :: rest => RE.alt r (raltList rest)

/-- Case-insensitive literal (every pattern here carries `re.IGNORECASE`). -/
def rlitCI (t : String) : RE := rcat (t.data.map (fun c => RE.ch (ciEq c)))

/-- Case-sensitive literal. -/
def rlit (t : String) : RE := rcat (t.data.map (fun c => RE.ch (fun d => d = c)))

/-- `p?` (greedy option) for a single-character class. -/
def roptCh (p : Char → Bool) : RE := RE.alt (RE.ch p) RE.eps

/-- `p+` (greedy) for a single-character class. -/
def rplus (p : Char → Bool) : RE := RE.seq (RE.ch p) (RE.star p true)

/-- Python `re.search`: does the pattern match at some position? -/
def reSearchL (r : RE) : List Char → Bool
  | [] => (reMatch r [] some).isSome
  | c :: rest => (reMatch r (c :: rest) some).isSome || reSearchL r rest

/-- Python `re.match`: does the pattern match at the start? -/
def reMatchStart (r : RE) (s : List Char) : Bool := (reMatch r s some).isSome

/-- Python `re.sub(pattern, repl, s)` with a constant replacement: scan left
to right, replace each leftmost non-overlapping match, resume after it.
No pattern in this repository can match the empty string; should one ever
do so the scan conservatively keeps the character and moves on. -/
def reSubFuel (r : RE) (repl : List Char) : Nat → List Char → List Char
  | 0, s => s
  | _ + 1, [] => []
  | fuel + 1, c :: rest =>
    match reMatch r (c :: rest) some with
    | some rem =>
      if rem.length < (c :: rest).length then
        repl ++ reSubFuel r repl fuel rem
      else
        c :: reSubFuel r repl fuel rest
    | none => c :: reSubFuel r repl fuel rest

/-- Python `re.sub` over a whole list. -/
def reSub (r : RE) (repl s : List Char) : List Char :=
  reSubFuel r repl (s.length + 1) s

/-- Python `re.findall` (patterns without groups): the matched substrings,
leftmost, non-overlapping. -/
def reFindAllFuel (r : RE) : Nat → List Char → List (List Char)
  | 0, _ => []
  | _ + 1, [] => []
  | fuel + 1, c :: rest =>
    match reMatch r (c :: rest) some with
    | some rem =>
      if rem.length < (c :: rest).length then
        List.take ((c :: rest).length - rem.length) (c :: rest) ::
          reFindAllFuel r fuel rem
      else reFindAllFuel r fuel rest
    | none => reFindAllFuel r fuel rest

/-- Python `re.findall` entry point. -/
def reFindAll (r : RE) (s : List Char) : List (List Char) :=
  reFindAllFuel r (s.length + 1) s

/-! ## Python values

The parameter values a query-form execution request carries after JSON
decoding.  `pfloat` and `pother` carry their Python `str()` rendering, which
is all the SQL builder observes of them. -/

/-- A Python runtime value as seen by the query-form service. -/
inductive PyVal where
  | pstr (s : String) : PyVal
  | pint (n : Int) : PyVal
  | pfloat (text : String) : PyVal
  | pbool (b : Bool) : PyVal
  | pnone : PyVal
  | pother (text : String) : PyVal
deriving DecidableEq

namespace QueryFormService

/-! ## `QueryFormService._build_parameterized_sql`
(src/app/services/query_form_service.py, lines 396-545)

A line-by-line embedding: the nine elision patterns, the glue cleanup, the
typed substitution, the final sweep over leftover `@tokens`, and the closing
cleanup, in source order. -/

/-- The empty-parameter test (line 415): `None`, `''`, or whitespace-only
string.  (Python `v == ''` is `False` for every non-string value.) -/
def is_empty_value : PyVal → Bool
  | .pnone => true
  | .pstr s => s = "" || pyStrip s = ""
  | _ => false

/-- Parameter-name normalization (line 410): prepend `@` when missing
(`param_name.startswith('@')`). -/
def normalize_name (n : String) : String :=
  if isPre ['@'] n.data then n else "@" ++ n

/-- Python dict insertion: replace in place when the key exists, else
append. -/
def dictInsert (k : String) (v : PyVal) :
    List (String × PyVal) → List (String × PyVal)
  | [] => [(k, v)]
  | (k0, v0) :: rest =>
    if k0 = k then (k0, v) :: rest else (k0, v0) :: dictInsert k v rest

/-- The `normalized_params` dict (lines 407-411), in insertion order. -/
def normalize_params (ps : List (String × PyVal)) : List (String × PyVal) :=
  ps.foldl (fun acc kv => dictInsert (normalize_name kv.1) kv.2 acc) []

/-- `[^)]*` -/
def notParenStar : RE := RE.star (fun c => c ≠ ')') true

/-- `[^']*` -/
def notQuoteStar : RE := RE.star (fun c => c ≠ sq) true

/-- `\s+` -/
def wsPlus : RE := rplus pySpace

/-- `\s*` -/
def wsStar : RE := RE.star pySpace true

/-- `(?=\s|$)` -/
def lookWsOrEnd : RE := RE.look (RE.alt (RE.ch pySpace) RE.eos)

/-- `'` as a regex. -/
def rquote : RE := RE.ch (fun c => c = sq)

/-- `\s+AND\s+\([^)]*P[^)]*\)` (elision pattern 1, line 435). -/
def patAndParen (p : String) : RE :=
  rcat [wsPlus, rlitCI "AND", wsPlus, rlit "(", notParenStar, rlitCI p,
    notParenStar, rlit ")"]

/-- `\s+OR\s+\([^)]*P[^)]*\)` (line 437). -/
def patOrParen (p : String) : RE :=
  rcat [wsPlus, rlitCI "OR", wsPlus, rlit "(", notParenStar, rlitCI p,
    notParenStar, rlit ")"]

/-- `\s+AND\s+\w+\s+LIKE\s+'[^']*P[^']*'` (line 439). -/
def patAndLike (p : String) : RE :=
  rcat [wsPlus, rlitCI "AND", wsPlus, rplus wordChar, wsPlus, rlitCI "LIKE",
    wsPlus, rquote, notQuoteStar, rlitCI p, notQuoteStar, rquote]

/-- `\s+OR\s+\w+\s+LIKE\s+'[^']*P[^']*'` (line 441). -/
def patOrLike (p : String) : RE :=
  rcat [wsPlus, rlitCI "OR", wsPlus, rplus wordChar, wsPlus, rlitCI "LIKE",
    wsPlus, rquote, notQuoteStar, rlitCI p, notQuoteStar, rquote]

/-- `\s+AND\s+\w+\s*=\s*P(?=\s|$)` (line 443). -/
def patAndEq (p : String) : RE :=
  rcat [wsPlus, rlitCI "AND", wsPlus, rplus wordChar, wsStar, rlit "=",
    wsStar, rlitCI p, lookWsOrEnd]

/-- `\s+OR\s+\w+\s*=\s*P(?=\s|$)` (line 445). -/
def patOrEq (p : String) : RE :=
  rcat [wsPlus, rlitCI "OR", wsPlus, rplus wordChar, wsStar, rlit "=",
    wsStar, rlitCI p, lookWsOrEnd]

/-- `WHERE\s+\([^)]*P[^)]*\)` (line 447). -/
def patWhereParen (p : String) : RE :=
  rcat [rlitCI "WHERE", wsPlus, rlit "(", notParenStar, rlitCI p,
    notParenStar, rlit ")"]

/-- `WHERE\s+\w+\s+LIKE\s+'[^']*P[^']*'` (line 448). -/
def patWhereLike (p : String) : RE :=
  rcat [rlitCI "WHERE", wsPlus, rplus wordChar, wsPlus, rlitCI "LIKE",
    wsPlus, rquote, notQuoteStar, rlitCI p, notQuoteStar, rquote]

/-- `WHERE\s+\w+\s*=\s*P(?=\s|$)` (line 449). -/
def patWhereEq (p : String) : RE :=
  rcat [rlitCI "WHERE", wsPlus, rplus wordChar, wsStar, rlit "=", wsStar,
    rlitCI p, lookWsOrEnd]

/-- The nine elision patterns for an empty parameter, in source order
(lines 433-450). -/
def removal_patterns (p : String) : List RE :=
  [patAndParen p, patOrParen p, patAndLike p, patOrLike p, patAndEq p,
    patOrEq p, patWhereParen p, patWhereLike p, patWhereEq p]

/-- Apply the elision patterns of one empty parameter (lines 452-454). -/
def applyRemovals (s : List Char) (p : String) : List Char :=
  (removal_patterns p).foldl (fun cur r => reSub r [] cur) s

/-- `(?=ORDER\s+BY|GROUP\s+BY|HAVING|LIMIT|$)` -/
def lookClauseTail : RE :=
  RE.look (raltList
    [rcat [rlitCI "ORDER", wsPlus, rlitCI "BY"],
     rcat [rlitCI "GROUP", wsPlus, rlitCI "BY"],
     rlitCI "HAVING", rlitCI "LIMIT", RE.eos])

/-- `(AND|OR)` -/
def andOrAlt : RE := RE.alt (rlitCI "AND") (rlitCI "OR")

/-- The boolean-glue cleanup block (lines 460-469), in source order. -/
def cleanupGlue (s : List Char) : List Char :=
  let s := reSub (rcat [wsPlus, rlitCI "AND", wsPlus, rlitCI "AND", wsPlus])
    " AND ".data s
  let s := reSub (rcat [wsPlus, rlitCI "OR", wsPlus, rlitCI "OR", wsPlus])
    " OR ".data s
  let s := reSub (rcat [wsPlus, rlitCI "AND", wsPlus, rlitCI "OR", wsPlus])
    " OR ".data s
  let s := reSub (rcat [wsPlus, rlitCI "OR", wsPlus, rlitCI "AND", wsPlus])
    " AND ".data s
  let s := reSub (rcat [rlitCI "WHERE", wsPlus, andOrAlt, wsPlus])
    "WHERE ".data s
  let s := reSub (rcat [wsPlus, andOrAlt, wsStar, lookClauseTail]) [] s
  let s := reSub (rcat [rlitCI "WHERE", wsPlus, lookClauseTail]) [] s
  let s := reSub (rcat [rlitCI "WHERE", wsStar, RE.eos]) [] s
  s

/-- The four LIKE-context shapes probed before substituting a string value
(lines 484-489): `'%P%'`, `'%P`, `P%'`, `'%P'`. -/
def like_patterns (p : String) : List String :=
  ["'%" ++ p ++ "%'", "'%" ++ p, p ++ "%'", "'%" ++ p ++ "'"]

/-- Double embedded single quotes (line 480). -/
def escape_quotes (s : String) : String :=
  String.mk (pyReplaceL [sq] [sq, sq] s.data)

/-- The SQL text substituted for one valid parameter (lines 477-507).
Python's `bool` is a subclass of `int`, so a boolean satisfies
`isinstance(v, (int, float))` first and is rendered by `str()` as
`True`/`False`; the later `'1' if v else '0'` branch is unreachable. -/
def render_value (sql : List Char) (p : String) : PyVal → List Char
  | .pstr s =>
    let esc := (escape_quotes s).data
    if (like_patterns p).any (fun lp => containsList lp.data sql) then esc
    else sq :: esc ++ [sq]
  | .pint n => (toString n).data
  | .pfloat t => t.data
  | .pbool b => (if b then "True" else "False").data
  | .pnone => sq :: (escape_quotes "None").data ++ [sq]
  | .pother t => sq :: (escape_quotes t).data ++ [sq]

/-- The substitution loop over valid parameters (lines 473-509): the
LIKE-context probe looks at the current, already partially substituted
text, and `str.replace` rewrites every occurrence. -/
def substitute (s : List Char) (valids : List (String × PyVal)) : List Char :=
  valids.foldl (fun cur kv => pyReplaceL kv.1.data (render_value cur kv.1 kv.2) cur) s

/-- `@\w+` (line 516). -/
def atToken : RE := RE.seq (rlit "@") (rplus wordChar)

/-- The six elision patterns of the final sweep (lines 524-531), in source
order. -/
def sweep_patterns (p : String) : List RE :=
  [patAndLike p, patOrLike p, patWhereLike p, patAndEq p, patOrEq p,
    patWhereEq p]

/-- The final sweep over a leftover `@token` that has no valid value
(lines 519-538). -/
def applySweep (valids : List (String × PyVal)) (s : List Char)
    (tok : List Char) : List Char :=
  if valids.any (fun kv => kv.1.data = tok) then s
  else (sweep_patterns (String.mk tok)).foldl (fun cur r => reSub r [] cur) s

/-- `QueryFormService._build_parameterized_sql` (lines 396-545): empty
parameters have their conditions elided, glue operators are normalized,
valid parameters are substituted by type, leftover tokens swept, and
whitespace collapsed. -/
def build_parameterized_sql (sql_template : String)
    (params : List (String × PyVal)) : String :=
  let norm := normalize_params params
  let empty_params := (norm.filter (fun kv => is_empty_value kv.2)).map (·.1)
  let valid_params := norm.filter (fun kv => !is_empty_value kv.2)
  let s := empty_params.foldl applyRemovals sql_template.data
  let s := cleanupGlue s
  let s := substitute s valid_params
  let s := joinSplit s
  let remaining := reFindAll atToken s
  let s := remaining.foldl (applySweep valid_params) s
  let s := reSub (rcat [rlitCI "WHERE", wsPlus, andOrAlt, wsPlus])
    "WHERE ".data s
  let s := reSub (rcat [rlitCI "WHERE", wsStar, RE.eos]) [] s
  String.mk (joinSplit s)

end QueryFormService

namespace QueryService

/-! ## `QueryService` (src/app/services/query_service.py)

Statement splitting, multi-statement detection, statement-type
classification and the unified `execute_query` dispatcher.  The ODBC driver
and the SQLAlchemy engine are I/O: their observable behaviour is passed in
as a `DriverEnv` value. -/

/-- Accumulator for the semicolon splitter. -/
def splitStmtsAux : List Char → List Char → List (List Char)
  | [], acc => [acc.reverse]
  | c :: rest, acc =>
    if c = ';' then (c :: acc).reverse :: splitStmtsAux rest []
    else splitStmtsAux rest (c :: acc)

/-- Model of the third-party `sqlparse.split`: cut after each `;`, keeping
the delimiter with its statement.  (The claims only exercise plain
semicolon-delimited batches, where sqlparse behaves exactly like this;
semicolons inside string literals or comments are not modelled.) -/
def sqlparse_split (s : String) : List String :=
  (splitStmtsAux s.data []).map String.mk

/-- `\b` at a given point: the keyword matches here, the previous character
(tracked by the caller) is not a word character, and neither is the
character right after the keyword. -/
def boundedAt (kw s : List Char) : Bool :=
  isPre kw s &&
    (match s.drop kw.length with
     | [] => true
     | d :: _ => !wordChar d)

/-- Count the `\bKW\b` occurrences of one keyword (`re.findall` on the
upper-cased SQL); the flag says whether the previous character is a word
character. -/
def countWordAux (kw : List Char) : List Char → Bool → Nat
  | [], _ => 0
  | c :: rest, prevWord =>
    (if !prevWord && boundedAt kw (c :: rest) then 1 else 0) +
      countWordAux kw rest (wordChar c)

/-- `QueryService._contains_multiple_statements` (lines 68-80): more than
one statement keyword, counted with word boundaries on the upper-cased
text. -/
def contains_multiple_statements (sql : String) : Bool :=
  let up := pyUpperL sql.data
  let kws := ["SELECT", "INSERT", "UPDATE", "DELETE", "CREATE", "DROP", "ALTER"]
  1 < (kws.map (fun kw => countWordAux kw.data up false)).sum

/-- `QueryService._is_statement_start` (lines 82-91). -/
def is_statement_start (line : String) : Bool :=
  let lu := pyUpperL (pyStripL line.data)
  let starters := ["SELECT", "INSERT", "UPDATE", "DELETE", "CREATE", "DROP",
    "ALTER", "WITH", "EXEC", "EXECUTE"]
  starters.any (fun st => isPre (st.data ++ [' ']) lu || lu = st.data)

/-- The line-joining loop of `_parse_sql_statements` (lines 43-60):
non-empty, non-comment lines are folded into statements, a recognized
statement-start line closing the previous statement. -/
def resplitLines : List (List Char) → List Char → List String
  | [], cur =>
    if (pyStripL cur).isEmpty then [] else [String.mk (pyStripL cur)]
  | l :: rest, cur =>
    let line := pyStripL l
    if line.isEmpty || isPre "--".data line then resplitLines rest cur
    else if is_statement_start (String.mk line) && !(pyStripL cur).isEmpty then
      String.mk (pyStripL cur) :: resplitLines rest line
    else
      resplitLines rest (if cur.isEmpty then line else cur ++ [' '] ++ line)

/-- `QueryService._parse_sql_statements` (lines 19-66): sqlparse-based
split, then the keyword-count heuristic re-split of a single statement. -/
def parse_sql_statements (sql : String) : List String :=
  if pyStrip sql = "" then []
  else
    let statements := ((sqlparse_split sql).map pyStrip).filter (· ≠ "")
    match statements with
    | [single] =>
      if contains_multiple_statements single then
        let potential := resplitLines (splitOnChar '\n' single.data) []
        if 1 < potential.length then potential else statements
      else statements
    | _ => statements

/-- The leading `--` comment-dropping loop of `_get_statement_type`
(lines 97-104), fuel-bounded by the text length. -/
def dropLeadComments : Nat → List Char → List Char
  | 0, s => s
  | fuel + 1, s =>
    if isPre "--".data s then
      match splitOnChar '\n' s with
      | _ :: l1 :: rest =>
        dropLeadComments fuel
          (pyUpperL (pyStripL (List.intercalate ['\n'] (l1 :: rest))))
      | _ => []
    else s

/-- `QueryService._get_statement_type` (lines 93-121). -/
def get_statement_type (statement : String) : String :=
  let st := dropLeadComments (statement.length + 1)
    (pyUpperL (pyStripL statement.data))
  if st.isEmpty then "UNKNOWN"
  else
    let first_word := match pyWords st with
      | [] => ([] : List Char)
      | w :: _ => w
    if first_word = "SELECT".data || first_word = "WITH".data then "SELECT"
    else if first_word = "INSERT".data || first_word = "UPDATE".data ||
        first_word = "DELETE".data then "MODIFY"
    else if first_word = "CREATE".data || first_word = "DROP".data ||
        first_word = "ALTER".data then "DDL"
    else if first_word = "EXEC".data || first_word = "EXECUTE".data ||
        first_word = "CALL".data then "PROCEDURE"
    else "OTHER"

/-- `QueryService._should_use_multiple_processing` (lines 123-135). -/
def should_use_multiple_processing (sql : String) : Bool :=
  1 < (parse_sql_statements sql).length

/-- One result the ODBC driver yields for a statement of a batch: either a
column-bearing result set or a column-less rowcount
(`cursor.description` present or absent). -/
inductive DriverResult where
  | withCols (columns : List String) (rows : List (List PyVal)) : DriverResult
  | noCols (rowcount : Int) : DriverResult

/-- One entry of a multi-statement execution response
(`SQLServerQueryManager.execute_multiple_statements_with_connection`,
src/app/core/sqlserver_manager.py lines 217-305). -/
structure MultiEntry where
  type : String
  index : Nat
  columns : List String
  data : List (List (String × PyVal))
  total : Nat
  message : String
deriving DecidableEq

/-- The classification loop of
`execute_multiple_statements_with_connection`: first result, then every
`nextset()`, numbered from 1. -/
def classifyResults : List DriverResult → Nat → List MultiEntry
  | [], _ => []
  | .withCols cols rows :: rest, i =>
    { type := "resultset", index := i, columns := cols,
      data := rows.map (fun row => cols.zip row),
      total := rows.length,
      message := "查询结果集 " ++ toString i } :: classifyResults rest (i + 1)
  | .noCols rc :: rest, i =>
    { type := "rowcount", index := i, columns := ["affected_rows"],
      data := [[("affected_rows", PyVal.pint rc)]],
      total := 1,
      message := "影响 " ++ toString rc ++ " 行" } :: classifyResults rest (i + 1)

/-- `SQLServerQueryManager.execute_multiple_statements_with_connection`,
as a function of the driver's yielded results. -/
def execute_multiple_statements_with_connection
    (driverResults : List DriverResult) : List MultiEntry :=
  classifyResults driverResults 1

/-- The observable behaviour of the engine for one request: what the
multi-statement path would receive from the driver, and what the plain
single-SELECT path (`SQLServerQueryManager.execute_query`) would return. -/
structure DriverEnv where
  multi : List DriverResult
  single : List (List (String × PyVal))

/-- The payload of a `QueryResponse`: a list of typed entries on the
multi-result path, plain rows otherwise. -/
inductive RespData where
  | entries (es : List MultiEntry) : RespData
  | rows (rs : List (List (String × PyVal))) : RespData

/-- `QueryResponse` (src/app/models/schemas.py lines 76-84);
`execution_time` is wall-clock time and not modelled. -/
structure QueryResponse where
  data : RespData
  columns : List String
  total : Nat
  sql : String
  is_multiple : Bool

/-- `QueryService.execute_query` (lines 137-235): multi-statement batches
and single modifying statements go through the multi-result path with
`is_multiple = true`; a single non-modifying statement returns plain rows;
an empty parse returns an empty single response. -/
def execute_query (sql : String) (env : DriverEnv) : QueryResponse :=
  if should_use_multiple_processing sql then
    let results := execute_multiple_statements_with_connection env.multi
    { data := .entries results, columns := [], total := results.length,
      sql := sql, is_multiple := true }
  else
    match parse_sql_statements sql with
    | [stmt] =>
      if get_statement_type stmt = "MODIFY" then
        let results := execute_multiple_statements_with_connection env.multi
        { data := .entries results, columns := [], total := results.length,
          sql := sql, is_multiple := true }
      else
        let data := env.single
        let columns := match data with
          | [] => []
          | row :: _ => row.map (·.1)
        { data := .rows data, columns := columns, total := data.length,
          sql := sql, is_multiple := false }
    | _ =>
      { data := .rows [], columns := [], total := 0, sql := sql,
        is_multiple := false }

end QueryService

/-- `FieldType` (src/app/models/schemas.py lines 340-351). -/
inductive FieldType where
  | text | number | email | date | datetime | select | multiselect
  | checkbox | radio | textarea
deriving DecidableEq

/-- `MatchType` (src/app/models/schemas.py lines 354-365). -/
inductive MatchType where
  | exact | like | start_with | end_with | greater | greater_equal
  | less | less_equal | between | in_list
deriving DecidableEq

/-- Keep the first occurrence of each element (a Python `set`-guarded
accumulation loop). -/
def dedupKeep : List String → List String → List String
  | [], _ => []
  | x :: rest, seen =>
    if seen.contains x then dedupKeep rest seen
    else x :: dedupKeep rest (x :: seen)

namespace SQLParameterParser

/-! ## `SQLParameterParser` (src/app/utils/sql_parser.py)

Parameter extraction and the field-type / match-type inference.  The
presentation helpers (`_generate_label`, placeholders, validation rules,
data sources) decorate the suggestion and are not needed by any claim, so
they are not modelled. -/

/-- `SQLParameterParser._extract_parameters` (lines 89-101): every
`@(\w+)` match, re-prefixed with `@`, deduplicated in first-occurrence
order. -/
def extract_parameters (sql_template : String) : List String :=
  dedupKeep ((reFindAll atTokenP sql_template.data).map String.mk) []
where
  /-- `@(\w+)` with the `@` re-attached, as the code does. -/
  atTokenP : RE := RE.seq (rlit "@") (rplus wordChar)

/-- One ordered field-type rule: `re.match` of a keyword alternation
against the parameter's bare name. -/
def kwAlt (ks : List String) : RE := raltList (ks.map rlitCI)

/-- `field_type_rules` (lines 19-32), in dict insertion order; the last
rule `.*` always matches. -/
def field_type_rules : List (RE × FieldType) :=
  [(kwAlt ["id", "count", "num", "number", "age", "year", "amount", "price",
      "rate", "percent"], .number),
   (kwAlt ["email", "mail"], .email),
   (kwAlt ["date", "time", "created", "updated", "birth", "start", "end"],
      .date),
   (kwAlt ["status", "type", "category", "level", "role", "gender", "state"],
      .select),
   (kwAlt ["description", "comment", "note", "remark", "content", "text"],
      .textarea),
   (RE.star (fun c => c ≠ '\n') true, .text)]

/-- `SQLParameterParser._infer_field_type` (lines 137-142): the first rule
whose pattern `re.match`es (anchored at the start) the bare name wins. -/
def infer_field_type (param_name : String) : FieldType :=
  go field_type_rules
where
  go : List (RE × FieldType) → FieldType
    | [] => .text
    | (r, ft) :: rest =>
      if reMatchStart r param_name.data then ft else go rest

/-- `['\"]?` -/
def quoteOpt : RE := roptCh (fun c => c = sq || c = '"')

/-- `.` (no-DOTALL dot). -/
def dotStar : RE := RE.star (fun c => c ≠ '\n') true

/-- `match_type_rules` (lines 35-46) with `@\w+` textually replaced by the
escaped parameter, as `_infer_match_type` does before searching. -/
def match_type_rules (p : String) : List (RE × MatchType) :=
  [(rcat [rlitCI "LIKE", wsPlus', quoteOpt, rlit "%", dotStar, rlitCI p,
      dotStar, rlit "%", quoteOpt], .like),
   (rcat [rlitCI "LIKE", wsPlus', quoteOpt, rlitCI p, rlit "%", quoteOpt],
      .start_with),
   (rcat [rlitCI "LIKE", wsPlus', quoteOpt, rlit "%", rlitCI p, quoteOpt],
      .end_with),
   (rcat [rlit ">=", wsStar', rlitCI p], .greater_equal),
   (rcat [rlit ">", wsStar', rlitCI p], .greater),
   (rcat [rlit "<=", wsStar', rlitCI p], .less_equal),
   (rcat [rlit "<", wsStar', rlitCI p], .less),
   (rcat [rlitCI "BETWEEN", wsPlus', rlitCI p, wsPlus', rlitCI "AND",
      wsPlus', rlitCI p], .between),
   (rcat [rlitCI "IN", wsStar', rlit "(", wsStar', rlitCI p, wsStar',
      rlit ")"], .in_list),
   (rcat [rlit "=", wsStar', rlitCI p], .exact)]
where
  wsPlus' : RE := rplus pySpace
  wsStar' : RE := RE.star pySpace true

/-- `SQLParameterParser._infer_match_type` (lines 144-162): the stripped
template lines containing the parameter are scanned in order against the
rules in order; the first `re.search` hit wins, default `EXACT`. -/
def infer_match_type (parameter : String) (sql_template : String) :
    MatchType :=
  let contexts := ((splitOnChar '\n' sql_template.data).filter
    (containsList parameter.data)).map pyStripL
  go contexts
where
  goRules (ctx : List Char) : List (RE × MatchType) → Option MatchType
    | [] => none
    | (r, mt) :: rest =>
      if reSearchL r ctx then some mt else goRules ctx rest
  go : List (List Char) → MatchType
    | [] => .exact
    | ctx :: rest =>
      match goRules ctx (match_type_rules parameter) with
      | some mt => mt
      | none => go rest

/-- The part of a `QueryFormField` suggestion the inference determines
(src/app/models/schemas.py lines 374-394; labels, placeholders, validation
and data sources are presentation and not modelled). -/
structure FormFieldSugg where
  parameter : String
  field_type : FieldType
  match_type : MatchType
  order : Nat
deriving DecidableEq

/-- Stable insertion (equal keys keep their relative order). -/
def insertSortedBy (le : α → α → Bool) (x : α) : List α → List α
  | [] => [x]
  | y :: ys => if le x y then x :: y :: ys else y :: insertSortedBy le x ys

/-- A stable sort (Python `list.sort`). -/
def sortBy (le : α → α → Bool) (l : List α) : List α :=
  l.foldr (insertSortedBy le) []

/-- `SQLParameterParser.parse_sql_parameters` (lines 48-79), restricted to
the inferred suggestion fields: extract, infer, sort by first occurrence in
the template, then assign 1-based `order`. -/
def parse_sql_parameters (sql_template : String) : List FormFieldSugg :=
  let parameters := extract_parameters sql_template
  let fields := parameters.map (fun p =>
    { parameter := p,
      field_type := infer_field_type (String.mk (p.data.drop 1)),
      match_type := infer_match_type p sql_template,
      order := 0 : FormFieldSugg })
  let sorted := sortBy
    (fun a b => pyFindL a.parameter.data sql_template.data ≤
      pyFindL b.parameter.data sql_template.data) fields
  sorted.enum.map (fun fi => { fi.2 with order := fi.1 + 1 })

end SQLParameterParser

namespace SQLServerQueryManager

/-! ## `SQLServerQueryManager.generate_connection_string`
(src/app/core/sqlserver_manager.py lines 64-73). -/

/-- The fixed text before the server name. -/
def connPrefix : String := "DRIVER=\x7bODBC Driver 17 for SQL Server\x7d;SERVER="

/-- The fixed text after the server name. -/
def connSuffix : String := ";Trusted_Connection=yes;TrustServerCertificate=yes;"

/-- `generate_connection_string`: the raw per-server ODBC string, Windows
integrated authentication, no database name. -/
def generate_connection_string (server_name : String) : String :=
  connPrefix ++ server_name ++ connSuffix

end SQLServerQueryManager

namespace SQLiteConfigManager

/-! ## `SQLiteConfigManager.execute_query`
(src/app/core/sqlite_manager.py lines 98-115): the positional-parameter
rewrite.  Only the pure rewriting of the SQL text and the construction of
the bound dictionary are modelled; the call into SQLAlchemy is I/O. -/

/-- The rewrite `execute_query` performs when `parameters` is a non-empty
tuple: `query.replace('?', ':param_0')` (Python `str.replace` rewrites
every occurrence) together with the `param_i` dictionary built by
`enumerate`.  An empty/absent tuple leaves the query untouched and binds
nothing. -/
def execute_query_rewrite (query : String) (parameters : List PyVal) :
    String × List (String × PyVal) :=
  match parameters with
  | [] => (query, [])
  | _ :: _ =>
    (pyReplace query "?" ":param_0",
     parameters.enum.map (fun vi => ("param_" ++ toString vi.1, vi.2)))

end SQLiteConfigManager

namespace ConfigService

/-! ## `ConfigService` (src/app/services/config_service.py)

Server listing and the current-server fallback.  The embedded store is
passed in as values: the `system_settings` rows and the `database_servers`
rows.  The event-loop-probing degradation paths (`get_database_servers`
returning `[]` when already inside a loop) are not taken on the plain
synchronous path modelled here. -/

/-- A row of the `database_servers` table, with the columns
`get_current_server_selection` can observe. -/
structure ServerRow where
  id : Int
  name : String
  port : Int
  is_enabled : Bool
  order : Int
deriving DecidableEq

/-- `ORDER BY "order", id` of `_get_database_servers_async`
(lines 62-101): all rows, enabled or not, sorted by the `order` column and
then by id. -/
def get_database_servers (rows : List ServerRow) : List ServerRow :=
  SQLParameterParser.sortBy
    (fun a b => a.order < b.order || (a.order = b.order && a.id ≤ b.id)) rows

/-- `_get_system_setting_async` (lines 706-716): the stored value when the
key has a row, else the default. -/
def get_system_setting (settings : List (String × String)) (key : String)
    (default_value : Option String) : Option String :=
  match settings.find? (fun kv => kv.1 = key) with
  | some kv => some kv.2
  | none => default_value

/-- `ConfigService.get_current_server_selection` (lines 664-675): a truthy
stored selection wins; otherwise the first server of the full (unfiltered)
ordered server list; `None` when there are no servers. -/
def get_current_server_selection (settings : List (String × String))
    (rows : List ServerRow) : Option String :=
  let fallback :=
    match get_database_servers rows with
    | [] => none
    | r :: _ => some r.name
  match get_system_setting settings "current_server_selection" none with
  | some s => if s = "" then fallback else some s
  | none => fallback

/-- What the claim's wording describes: the first *enabled* server in the
ordered list (stated for comparison with the code's behaviour, which does
not filter on `is_enabled`). -/
def first_enabled_server_name (rows : List ServerRow) : Option String :=
  ((get_database_servers rows).find? (fun r => r.is_enabled)).map (·.name)

end ConfigService

namespace SQLSchemaAnalyzer

/-! ## `SQLSchemaAnalyzer` (src/app/utils/schema_analyzer.py)

Table-name extraction and the recursive view-dependency walk of
`get_create_statements` / `_process_table_or_view`.  The catalog queries
(`_get_view_definition`, `_get_table_structure`) are I/O against the remote
engine; their observable results are supplied by a `SchemaEnv`.  The
unbounded Python recursion is modelled with fuel; the theorems below show
the fuel chosen by the embedding always suffices. -/

/-- `--.*?\n` (line-comment removal pattern of `extract_table_names`,
line 24). -/
def patLineComment : RE :=
  rcat [rlit "--", RE.star (fun c => c ≠ '\n') false, rlit "\n"]

/-- `/\*.*?\*/` with `re.DOTALL` (line 25). -/
def patBlockComment : RE :=
  rcat [rlit "/*", RE.star (fun _ => true) false, rlit "*/"]

/-- `[a-zA-Z_]` -/
def identFirst (c : Char) : Bool :=
  (c ≥ 'a' && c ≤ 'z') || (c ≥ 'A' && c ≤ 'Z') || c = '_'

/-- One optional `\.[a-zA-Z_][a-zA-Z0-9_]*` step of the dotted-name
group. -/
def takeDotPart : List Char → List Char × List Char
  | c :: d :: rest =>
    if c = '.' && identFirst d then
      ('.' :: d :: rest.takeWhile wordChar, rest.dropWhile wordChar)
    else ([], c :: d :: rest)
  | s => ([], s)

/-- Greedy parse of `[a-zA-Z_][a-zA-Z0-9_]*(?:\.[a-zA-Z_][a-zA-Z0-9_]*){0,2}`
(the captured group of the `FROM`/`JOIN` pattern, line 31): the identifier
and the remainder. -/
def takeDottedIdent (s : List Char) : Option (List Char × List Char) :=
  match s with
  | [] => none
  | c :: rest =>
    if identFirst c then
      let base := c :: rest.takeWhile wordChar
      let rem := rest.dropWhile wordChar
      let (p1, rem1) := takeDotPart rem
      let (p2, rem2) := takeDotPart rem1
      some (base ++ p1 ++ p2, rem2)
    else none

/-- Try `\b(?:FROM|JOIN)\s+<group>` at this position (the caller tracks the
word-boundary flag); both keywords are four characters long. -/
def tryFromJoin (s : List Char) : Option (List Char × List Char) :=
  if ciIsPre "FROM".data s || ciIsPre "JOIN".data s then
    match s.drop 4 with
    | d :: rest2 =>
      if pySpace d then takeDottedIdent ((d :: rest2).dropWhile pySpace)
      else none
    | [] => none
  else none

/-- The `re.finditer` scan for `FROM`/`JOIN` table references (lines
31-37), resuming after each match; fuel bounds the scan. -/
def scanFromJoin : Nat → List Char → Bool → List (List Char)
  | 0, _, _ => []
  | _ + 1, [], _ => []
  | fuel + 1, c :: rest, prevWord =>
    match if prevWord then none else tryFromJoin (c :: rest) with
    | some (name, rem) => name :: scanFromJoin fuel rem true
    | none => scanFromJoin fuel rest (wordChar c)

/-- Python `name.strip('[]')`. -/
def stripBrackets (n : List Char) : List Char :=
  let isBr := fun c => c = '[' || c = ']'
  ((n.dropWhile isBr).reverse.dropWhile isBr).reverse

/-- The name-normalization step of `extract_table_names` (lines 40-50):
strip brackets, then prefix `OneToolsDb.dbo.` / `OneToolsDb.` according to
how many dots the name already has. -/
def clean_name (n : List Char) : List Char :=
  let m := stripBrackets n
  if m.count '.' = 0 then "OneToolsDb.dbo.".data ++ m
  else if m.count '.' = 1 then "OneToolsDb.".data ++ m
  else m

/-- `SQLSchemaAnalyzer.extract_table_names` (lines 17-57): strip comments,
collect the `FROM`/`JOIN` references, normalize to three-part names.
Python accumulates into `set`s whose iteration order is hash-dependent;
the embedding keeps first-occurrence order (the claims proved about the
walk are order-independent). -/
def extract_table_names (sql : String) : List String :=
  let noLine := reSub patLineComment "\n".data sql.data
  let noBlock := reSub patBlockComment [] noLine
  let raw := dedupKeep ((scanFromJoin (noBlock.length + 1) noBlock false).map
    String.mk) []
  dedupKeep (raw.map (fun n => String.mk (clean_name n.data))) []

/-- `SQLSchemaAnalyzer._parse_object_name` (lines 112-120). -/
def parse_object_name (full_name : String) : String × String × String :=
  match splitOnChar '.' full_name.data with
  | [a, b, c] => (String.mk a, String.mk b, String.mk c)
  | [a, b] => ("OneToolsDb", String.mk a, String.mk b)
  | parts => ("OneToolsDb", "dbo", String.mk (parts.headD []))

/-- The observable results of the per-object catalog queries:
`viewDefs` is the finite table behind `_get_view_definition` (the
`INFORMATION_SCHEMA.VIEWS` rows, keyed by database, schema and object
name); `tableStmt` is the text `_get_table_structure` composes for a
non-view object (always a non-empty string: a CREATE TABLE script, a
warning comment or an error comment). -/
structure SchemaEnv where
  viewDefs : List ((String × String × String) × String)
  tableStmt : String → String → String → String

/-- `_get_view_definition` against the environment. -/
def get_view_definition (env : SchemaEnv) (d s o : String) : Option String :=
  (env.viewDefs.find? (fun kv => kv.1 = (d, s, o))).map (·.2)

/-- `SQLSchemaAnalyzer._process_table_or_view` (lines 69-110): skip
already-processed names, record the object, and for a view recurse into
the references of its definition.  The accumulated association list models
the `create_statements` dict, the name list the `processed_objects` set.
`none` means the fuel ran out (the sufficiency theorems show the chosen
fuel never does). -/
def process_table_or_view (env : SchemaEnv) :
    Nat → String → List (String × String) × List String →
    Option (List (String × String) × List String)
  | 0, _, _ => none
  | fuel + 1, object_name, st =>
    if st.2.contains object_name then some st
    else
      let processed := object_name :: st.2
      let p := parse_object_name object_name
      match get_view_definition env p.1 p.2.1 p.2.2 with
      | some d =>
        if d = "" then
          some (st.1 ++ [(object_name, env.tableStmt p.1 p.2.1 p.2.2)],
            processed)
        else
          let stmts := st.1 ++
            [(object_name, "CREATE VIEW " ++ object_name ++ " AS\n" ++ d)]
          (extract_table_names d).foldl
            (fun acc dep => acc.bind (process_table_or_view env fuel dep))
            (some (stmts, processed))
      | none =>
        some (st.1 ++ [(object_name, env.tableStmt p.1 p.2.1 p.2.2)],
          processed)

/-- The fuel the embedding hands every top-level call: one more than the
number of catalog view rows (a strictly deeper recursion would have to
pass through that many distinct unprocessed views). -/
def analyzerFuel (env : SchemaEnv) : Nat := env.viewDefs.length + 1

/-- `SQLSchemaAnalyzer.get_create_statements` (lines 59-67): fold the
walk over the extracted names with a shared dict and visited set. -/
def get_create_statements (env : SchemaEnv) (table_names : List String) :
    Option (List (String × String)) :=
  (table_names.foldl
    (fun acc n => acc.bind (process_table_or_view env (analyzerFuel env) n))
    (some ([], []))).map (·.1)

end SQLSchemaAnalyzer

namespace QueryFormService

/-! ## `QueryFormService` form CRUD
(src/app/services/query_form_service.py lines 38-255)

Every method wraps its storage access in `try/except`; the embedding
passes the outcome of that access in as a `StoreResult` (`err` being any
exception raised while touching the embedded store) and reproduces the
handler's returns.  Timestamps (`datetime.utcnow`) and the JSON decoding
of `form_config` are presentation details left as opaque text. -/

/-- The outcome of one storage-layer interaction: the fetched value, or
any exception it raised. -/
inductive StoreResult (α : Type) where
  | ok (a : α) : StoreResult α
  | err (msg : String) : StoreResult α

/-- A row of the `query_forms` table, as the service reads it. -/
structure FormRow where
  id : Int
  form_name : String
  form_description : Option String
  sql_template : String
  form_config : String
  target_database : Option String
  is_active : Bool
  created_by : Option String
deriving DecidableEq

/-- `QueryFormResponse` restricted to the fields the CRUD layer computes
(timestamps not modelled). -/
structure QueryFormResponse where
  id : Int
  form_name : String
  form_description : Option String
  sql_template : String
  form_config : String
  target_database : Option String
  is_active : Bool
  created_by : Option String
deriving DecidableEq

/-- The row-to-response mapping shared by the read paths (lines 57-72 and
96-109). -/
def row_to_response (r : FormRow) : QueryFormResponse :=
  { id := r.id, form_name := r.form_name,
    form_description := r.form_description,
    sql_template := r.sql_template, form_config := r.form_config,
    target_database := r.target_database, is_active := r.is_active,
    created_by := r.created_by }

/-- `QueryFormService.get_all_forms` (lines 38-79): the selected rows, or
`[]` when the storage access raised. -/
def get_all_forms (fetch : StoreResult (List FormRow)) :
    List QueryFormResponse :=
  match fetch with
  | .ok rows => rows.map row_to_response
  | .err _ => []

/-- `QueryFormService.get_form_by_id` (lines 81-113): the row when found,
`None` when absent, and `None` again when the storage access raised. -/
def get_form_by_id (fetch : StoreResult (Option FormRow)) :
    Option QueryFormResponse :=
  match fetch with
  | .ok (some r) => some (row_to_response r)
  | .ok none => none
  | .err _ => none

/-- The caller-supplied payload of `create_form`. -/
structure QueryFormCreate where
  form_name : String
  form_description : Option String
  sql_template : String
  form_config : String
  target_database : Option String
deriving DecidableEq

/-- `QueryFormService.create_form` (lines 115-161): on a successful INSERT
the response echoes the payload with the new id, `is_active = True`,
`created_by = "system"`; on a storage exception, `None`. -/
def create_form (insert : StoreResult Int) (fd : QueryFormCreate) :
    Option QueryFormResponse :=
  match insert with
  | .ok newId =>
    some { id := newId, form_name := fd.form_name,
           form_description := fd.form_description,
           sql_template := fd.sql_template, form_config := fd.form_config,
           target_database := fd.target_database, is_active := true,
           created_by := some "system" }
  | .err _ => none

/-- The caller-supplied payload of `update_form` (absent fields stay
untouched). -/
structure QueryFormUpdate where
  form_name : Option String
  form_description : Option String
  sql_template : Option String
  form_config : Option String
  target_database : Option String
  is_active : Option Bool
deriving DecidableEq

/-- How many `update_fields` entries the method builds (lines 170-195). -/
def update_field_count (fd : QueryFormUpdate) : Nat :=
  (if fd.form_name.isSome then 1 else 0) +
  (if fd.form_description.isSome then 1 else 0) +
  (if fd.sql_template.isSome then 1 else 0) +
  (if fd.form_config.isSome then 1 else 0) +
  (if fd.target_database.isSome then 1 else 0) +
  (if fd.is_active.isSome then 1 else 0)

/-- `QueryFormService.update_form` (lines 163-221): nothing to update
returns the current row; zero updated rows returns `None`; otherwise the
re-fetched row; any storage exception returns `None`. -/
def update_form (fd : QueryFormUpdate) (upd : StoreResult Int)
    (refetch : StoreResult (Option FormRow)) : Option QueryFormResponse :=
  if update_field_count fd = 0 then get_form_by_id refetch
  else
    match upd with
    | .ok rowcount =>
      if rowcount = 0 then none else get_form_by_id refetch
    | .err _ => none

set_option linter.unusedVariables false in
/-- `QueryFormService.delete_form` (lines 223-255): `soft_delete` picks an
UPDATE or a DELETE; either way zero affected rows or a storage exception
yields `False`, otherwise `True`.  (On the hard path the two statements
are one storage interaction here: a failure of either is `err`.) -/
def delete_form (soft_delete : Bool) (exec : StoreResult Int) : Bool :=
  match exec with
  | .ok rowcount => if rowcount = 0 then false else true
  | .err _ => false

end QueryFormService

/-- Does `s` end with `suf`? (used to state "no trailing boolean
operator"). -/
def ends_with (suf s : String) : Bool :=
  isPre suf.data.reverse s.data.reverse

namespace QueryService

/-- The `type` tags of a multi-result response, in order (`[]` for a
plain-rows response). -/
def entry_types (r : QueryResponse) : List String :=
  match r.data with
  | .entries es => es.map (·.type)
  | .rows _ => []

/-- The `(type, data)` pairs of a multi-result response, in order. -/
def entry_summaries (r : QueryResponse) :
    List (String × List (List (String × PyVal))) :=
  match r.data with
  | .entries es => es.map (fun e => (e.type, e.data))
  | .rows _ => []

end QueryService

namespace SQLSchemaAnalyzer

/-- A three-part object name: its dot-split has exactly three components.
Every name `extract_table_names` emits has this shape, and on such names
`parse_object_name` is injective. -/
def normalName (n : String) : Prop :=
  (splitOnChar '.' n.data).length = 3

instance (n : String) : Decidable (normalName n) := by
  unfold normalName; infer_instance

/-- The catalog's view keys. -/
def viewKeys (env : SchemaEnv) : List (String × String × String) :=
  env.viewDefs.map (·.1)

/-- Is the view key `k` already accounted for by a processed name? -/
def coveredB (st2 : List String) (k : String × String × String) : Bool :=
  st2.any (fun n => parse_object_name n = k)

/-- How many distinct view keys no processed name accounts for: the
decreasing measure of the walk. -/
def uncovCount (env : SchemaEnv) (st2 : List String) : Nat :=
  ((viewKeys env).dedup.filter (fun k => !coveredB st2 k)).length

/-- Sequential processing of a list of names (the dependency loop of
`_process_table_or_view` and the top-level loop of
`get_create_statements`, written recursively for the proofs). -/
def process_list (env : SchemaEnv) (fuel : Nat) :
    List String → List (String × String) × List String →
    Option (List (String × String) × List String)
  | [], st => some st
  | n :: rest, st =>
    match process_table_or_view env fuel n st with
    | some st' => process_list env fuel rest st'
    | none => none

/-- Every processed name is three-part (the shape `extract_table_names`
produces and the walk preserves). -/
def GoodState (st : List (String × String) × List String) : Prop :=
  ∀ n ∈ st.2, normalName n

/-- The walk only ever grows the processed set. -/
def Extends (st st' : List (String × String) × List String) : Prop :=
  ∀ x ∈ st.2, x ∈ st'.2

/-- The dict invariant: statement keys are distinct and all recorded in
the processed set. -/
def InvKeys (st : List (String × String) × List String) : Prop :=
  (st.1.map Prod.fst).Nodup ∧ ∀ k ∈ st.1.map Prod.fst, k ∈ st.2

/-- Rebuild a list from its `splitOnChar` pieces (proof support for the
injectivity of `parse_object_name` on three-part names). -/
def unsplitChar (c : Char) : List (List Char) → List Char
  | [] => []
  | [x] => x
  | x :: y :: t => x ++ c :: unsplitChar c (y :: t)

/-- A catalog with two mutually recursive views, used to witness the
cyclic-walk theorem. -/
def cyclicEnvExample : SchemaEnv :=
  { viewDefs := [(("OneToolsDb", "dbo", "V1"), "SELECT * FROM V2"),
                 (("OneToolsDb", "dbo", "V2"), "SELECT * FROM V1")],
    tableStmt := fun _ _ o => "CREATE TABLE " ++ o }

end SQLSchemaAnalyzer

/-! # Theorems -/

set_option maxRecDepth 40000

open QueryFormService QueryService SQLParameterParser SQLServerQueryManager
open SQLiteConfigManager ConfigService SQLSchemaAnalyzer

/-- C1.  Parameterized-SQL empty-parameter elision: for the template
`SELECT * FROM t WHERE (@name IS NULL OR name LIKE '%@name%') AND
status=@status` with params `{name: "", status: "A"}`, the built SQL no
longer contains the `@name` clause (`@name` is gone, and so is the whole
parenthesized condition), `@status` is replaced by the literal `'A'`, and
no leftover `WHERE AND` or trailing `AND`/`OR` remains; the exact output
is `SELECT * FROM t AND status='A'`. -/
theorem c1_empty_parameter_elision :
    build_parameterized_sql
        "SELECT * FROM t WHERE (@name IS NULL OR name LIKE '%@name%') AND status=@status"
        [("name", .pstr ""), ("status", .pstr "A")] =
      "SELECT * FROM t AND status='A'" ∧
    containsList "@name".data "SELECT * FROM t AND status='A'".data = false ∧
    containsList "(@name IS NULL OR name LIKE '%@name%')".data
      "SELECT * FROM t AND status='A'".data = false ∧
    containsList "status='A'".data "SELECT * FROM t AND status='A'".data = true ∧
    containsList "WHERE AND".data "SELECT * FROM t AND status='A'".data = false ∧
    ends_with " AND" "SELECT * FROM t AND status='A'" = false ∧
    ends_with " OR" "SELECT * FROM t AND status='A'" = false := by
  refine ⟨by decide, by decide, by decide, by decide, by decide, by decide, by decide⟩

/-- C3.  Parameterized-SQL LIKE vs equality quoting: the same template with
params `{name: "bob", status: "A"}` substitutes `@name` as the bare escaped
text `bob` inside the existing `'%…%'` literal (the LIKE literal becomes
`'%bob%'`, not re-quoted), while `@status` becomes the quoted literal
`'A'`. -/
theorem c3_like_vs_equality_quoting :
    build_parameterized_sql
        "SELECT * FROM t WHERE (@name IS NULL OR name LIKE '%@name%') AND status=@status"
        [("name", .pstr "bob"), ("status", .pstr "A")] =
      "SELECT * FROM t WHERE (bob IS NULL OR name LIKE '%bob%') AND status='A'" ∧
    containsList "LIKE '%bob%'".data
      "SELECT * FROM t WHERE (bob IS NULL OR name LIKE '%bob%') AND status='A'".data
      = true ∧
    containsList "'%'bob'%'".data
      "SELECT * FROM t WHERE (bob IS NULL OR name LIKE '%bob%') AND status='A'".data
      = false ∧
    containsList "status='A'".data
      "SELECT * FROM t WHERE (bob IS NULL OR name LIKE '%bob%') AND status='A'".data
      = true := by
  refine ⟨by decide, by decide, by decide, by decide⟩

/-- C6.  Parameter value rendering by type.  Numeric values substitute as
their literal text and other non-string values are quote-escaped and
wrapped in quotes as the claim says, but a boolean does NOT substitute as
`1`/`0`: Python's `bool` is a subclass of `int`, so a boolean satisfies
`isinstance(v, (int, float))` and is rendered by `str()` as `True`/`False`
(the dedicated `'1' if v else '0'` branch in the source is unreachable).
This theorem evaluates the embedded code at the failing input. -/
theorem c6_bool_rendered_as_python_str :
    build_parameterized_sql "SELECT * FROM t WHERE flag=@flag"
        [("flag", .pbool true)] = "SELECT * FROM t WHERE flag=True" ∧
    build_parameterized_sql "SELECT * FROM t WHERE flag=@flag"
        [("flag", .pbool false)] = "SELECT * FROM t WHERE flag=False" ∧
    build_parameterized_sql "SELECT * FROM t WHERE n=@n AND s=@s"
        [("n", .pint 42), ("s", .pstr "x'y")] =
      "SELECT * FROM t WHERE n=42 AND s='x''y'" ∧
    build_parameterized_sql "SELECT * FROM t WHERE flag=@flag"
        [("flag", .pbool true)] ≠ "SELECT * FROM t WHERE flag=1" := by
  refine ⟨by decide, by decide, by decide, by decide⟩

/-- C4 (counterexample).  The claim says a template containing
`WHERE age >= @min_age` yields `field_type=NUMBER` for `@min_age`; on the
code it does not: the field-type rules are applied with `re.match`, which
anchors at the start of the bare name, and `min_age` does not start with
any numeric keyword, so the suggested field comes back as TEXT. -/
theorem c4_number_inference_counterexample :
    parse_sql_parameters "SELECT * FROM users WHERE age >= @min_age" =
      [{ parameter := "@min_age", field_type := .text,
         match_type := .greater_equal, order := 1 }] ∧
    FieldType.text ≠ FieldType.number := by
  refine ⟨by decide, by decide⟩

/-- C4 (amended).  For the template `SELECT * FROM users WHERE email LIKE
'%@email%'` the parser suggests `@email` with `field_type=EMAIL` and
`match_type=LIKE`; for `SELECT * FROM users WHERE age >= @min_age` it
suggests `@min_age` with `field_type=TEXT` (the name-keyword rules match
only at the start of the bare name) and `match_type=GREATER_EQUAL`. -/
theorem c4_type_and_match_inference :
    parse_sql_parameters "SELECT * FROM users WHERE email LIKE '%@email%'" =
      [{ parameter := "@email", field_type := .email,
         match_type := .like, order := 1 }] ∧
    parse_sql_parameters "SELECT * FROM users WHERE age >= @min_age" =
      [{ parameter := "@min_age", field_type := .text,
         match_type := .greater_equal, order := 1 }] := by
  refine ⟨by decide, by decide⟩

/-- C2.  Multi-statement dispatch and classification: for the batch
`SELECT 1; SELECT 2;`, whenever the driver yields two column-bearing
results the response has `is_multiple = true`, `total = 2` and both
entries typed `resultset`; for the single statement
`DELETE FROM t WHERE 1=0;`, when the driver yields one column-less result
affecting 0 rows the response has `is_multiple = true`, `total = 1` and a
single `rowcount` entry whose data carries `affected_rows = 0`. -/
theorem c2_multi_statement_classification :
    (∀ (cols1 cols2 : List String) (rows1 rows2 : List (List PyVal))
        (single : List (List (String × PyVal))),
      (execute_query "SELECT 1; SELECT 2;"
        ⟨[.withCols cols1 rows1, .withCols cols2 rows2], single⟩).is_multiple
          = true ∧
      (execute_query "SELECT 1; SELECT 2;"
        ⟨[.withCols cols1 rows1, .withCols cols2 rows2], single⟩).total = 2 ∧
      entry_types (execute_query "SELECT 1; SELECT 2;"
        ⟨[.withCols cols1 rows1, .withCols cols2 rows2], single⟩) =
          ["resultset", "resultset"]) ∧
    (∀ (single : List (List (String × PyVal))),
      (execute_query "DELETE FROM t WHERE 1=0;"
        ⟨[.noCols 0], single⟩).is_multiple = true ∧
      (execute_query "DELETE FROM t WHERE 1=0;"
        ⟨[.noCols 0], single⟩).total = 1 ∧
      entry_summaries (execute_query "DELETE FROM t WHERE 1=0;"
        ⟨[.noCols 0], single⟩) =
          [("rowcount", [[("affected_rows", PyVal.pint 0)]])]) := by
  exact ⟨fun _ _ _ _ _ => ⟨rfl, rfl, rfl⟩, fun _ => ⟨rfl, rfl, rfl⟩⟩

/-- Replacing `?` by `:param_0` leaves no `?` behind (the replacement text
itself contains none and the scan visits every character). -/
theorem pyReplaceFuel_qmark_clean :
    ∀ (fuel : Nat) (s : List Char), s.length < fuel →
      '?' ∉ pyReplaceFuel ['?'] ":param_0".data fuel s := by
  intro fuel
  induction fuel with
  | zero => intro s h; omega
  | succ f ih =>
    intro s h
    match s with
    | [] => simp [pyReplaceFuel]
    | c :: rest =>
      by_cases hc : ('?' : Char) = c
      · subst hc
        have hstep : pyReplaceFuel ['?'] ":param_0".data (f + 1) ('?' :: rest) =
            ":param_0".data ++ pyReplaceFuel ['?'] ":param_0".data f rest := by
          simp [pyReplaceFuel, isPre]
        rw [hstep]
        intro hmem
        rcases List.mem_append.mp hmem with hl | hr
        · revert hl; decide
        · exact ih rest (by simp at h; omega) hr
      · have hstep : pyReplaceFuel ['?'] ":param_0".data (f + 1) (c :: rest) =
            c :: pyReplaceFuel ['?'] ":param_0".data f rest := by
          simp [pyReplaceFuel, isPre, hc]
        rw [hstep]
        intro hmem
        rcases List.mem_cons.mp hmem with hEq | hmem2
        · exact hc hEq
        · exact ih rest (by simp at h; omega) hmem2

/-- C7 (counterexample).  The claim says only the first `?` occurrence is
rewritten and later ones are left untouched; on the code,
`query.replace('?', ':param_0')` rewrites every occurrence, so a query
with two placeholders comes back with both turned into `:param_0` and no
`?` remaining. -/
theorem c7_first_only_counterexample :
    (execute_query_rewrite "DELETE FROM t WHERE a = ? AND b = ?"
        [.pint 1, .pint 2]).1 =
      "DELETE FROM t WHERE a = :param_0 AND b = :param_0" ∧
    containsList "?".data
      (execute_query_rewrite "DELETE FROM t WHERE a = ? AND b = ?"
        [.pint 1, .pint 2]).1.data = false ∧
    (execute_query_rewrite "DELETE FROM t WHERE a = ? AND b = ?"
        [.pint 1, .pint 2]).2 =
      [("param_0", .pint 1), ("param_1", .pint 2)] := by
  refine ⟨by decide, by decide, by decide⟩

/-- C7 (amended).  When `SQLiteConfigManager.execute_query` is given a
non-empty tuple of positional parameters it rewrites EVERY `?` occurrence
in the SQL text to the same named parameter `:param_0` (none survives),
and binds a dictionary mapping `param_i` to the i-th supplied value. -/
theorem c7_rewrites_every_placeholder (q : String) (ps : List PyVal)
    (h : ps ≠ []) :
    (execute_query_rewrite q ps).1 = pyReplace q "?" ":param_0" ∧
    '?' ∉ (execute_query_rewrite q ps).1.data ∧
    (execute_query_rewrite q ps).2 =
      ps.enum.map (fun vi => ("param_" ++ toString vi.1, vi.2)) := by
  match ps with
  | [] => exact absurd rfl h
  | p :: rest =>
    refine ⟨rfl, ?_, rfl⟩
    show '?' ∉ (pyReplace q "?" ":param_0").data
    exact pyReplaceFuel_qmark_clean (q.data.length + 1) q.data
      (Nat.lt_succ_self _)

/-- Witness for C7 (amended): the two-placeholder DELETE with two
parameters satisfies the hypothesis and the conclusion. -/
theorem c7_rewrites_every_placeholder_witness :
    ([PyVal.pint 1, PyVal.pint 2] ≠ ([] : List PyVal)) ∧
    ((execute_query_rewrite "DELETE FROM t WHERE a = ? AND b = ?"
        [PyVal.pint 1, PyVal.pint 2]).1 =
      pyReplace "DELETE FROM t WHERE a = ? AND b = ?" "?" ":param_0" ∧
    '?' ∉ (execute_query_rewrite "DELETE FROM t WHERE a = ? AND b = ?"
        [PyVal.pint 1, PyVal.pint 2]).1.data ∧
    (execute_query_rewrite "DELETE FROM t WHERE a = ? AND b = ?"
        [PyVal.pint 1, PyVal.pint 2]).2 =
      [PyVal.pint 1, PyVal.pint 2].enum.map
        (fun vi => ("param_" ++ toString vi.1, vi.2))) :=
  ⟨by decide,
   c7_rewrites_every_placeholder "DELETE FROM t WHERE a = ? AND b = ?"
     [PyVal.pint 1, PyVal.pint 2] (by decide)⟩

/-- C8 (counterexample).  The claim says that with no stored selection and
an enabled server present, the first server "in enabled order" is
returned; the code never filters on `is_enabled`, so when the first server
by `(order, id)` is disabled and a later one is enabled, the disabled
server's name is returned. -/
theorem c8_enabled_filter_counterexample :
    get_current_server_selection []
        [{ id := 1, name := "alpha", port := 1433, is_enabled := false,
           order := 1 },
         { id := 2, name := "beta", port := 1433, is_enabled := true,
           order := 2 }] = some "alpha" ∧
    first_enabled_server_name
        [{ id := 1, name := "alpha", port := 1433, is_enabled := false,
           order := 1 },
         { id := 2, name := "beta", port := 1433, is_enabled := true,
           order := 2 }] = some "beta" ∧
    get_current_server_selection []
        [{ id := 1, name := "alpha", port := 1433, is_enabled := false,
           order := 1 },
         { id := 2, name := "beta", port := 1433, is_enabled := true,
           order := 2 }] ≠
      first_enabled_server_name
        [{ id := 1, name := "alpha", port := 1433, is_enabled := false,
           order := 1 },
         { id := 2, name := "beta", port := 1433, is_enabled := true,
           order := 2 }] := by
  refine ⟨by decide, by decide, by decide⟩

/-- C8 (amended).  With no persisted current-server selection,
`get_current_server_selection` returns the name of the first server in the
full `(order, id)`-sorted list regardless of the `is_enabled` flag, and
returns no value exactly when zero servers exist. -/
theorem c8_first_server_fallback (settings : List (String × String))
    (rows : List ServerRow)
    (h : get_system_setting settings "current_server_selection" none = none) :
    get_current_server_selection settings rows =
      (get_database_servers rows).head?.map (·.name) := by
  unfold get_current_server_selection
  rw [h]
  cases get_database_servers rows <;> rfl

/-- Witness for C8 (amended): empty settings and two servers. -/
theorem c8_first_server_fallback_witness :
    (get_system_setting [] "current_server_selection" none = none) ∧
    get_current_server_selection []
        [{ id := 1, name := "alpha", port := 1433, is_enabled := false,
           order := 1 },
         { id := 2, name := "beta", port := 1433, is_enabled := true,
           order := 2 }] =
      (get_database_servers
        [{ id := 1, name := "alpha", port := 1433, is_enabled := false,
           order := 1 },
         { id := 2, name := "beta", port := 1433, is_enabled := true,
           order := 2 }]).head?.map (·.name) :=
  ⟨by decide,
   c8_first_server_fallback _ _ (by decide)⟩

/-- `String.data` distributes over append. -/
theorem string_data_append (a b : String) : (a ++ b).data = a.data ++ b.data := by
  cases a; cases b; rfl

/-- Where an infix occurrence of `pat` in `xs ++ ys` can sit: inside `xs`,
inside `ys`, or split across the boundary with a nonempty part on each
side. -/
theorem infix_append_cases {α : Type} (pat xs ys : List α)
    (h : pat <:+: xs ++ ys) :
    pat <:+: xs ∨ pat <:+: ys ∨
      ∃ p q, pat = p ++ q ∧ p ≠ [] ∧ q ≠ [] ∧ p <:+ xs ∧ q <+: ys := by
  obtain ⟨s, t, hst⟩ := h
  rw [List.append_assoc] at hst
  rcases List.append_eq_append_iff.mp hst with ⟨a, hxs, hpt⟩ | ⟨c, _, hys⟩
  · rcases List.append_eq_append_iff.mp hpt with ⟨b, ha, _⟩ | ⟨c2, hpat, hys2⟩
    · left
      exact ⟨s, b, by rw [hxs, ha, List.append_assoc]⟩
    · by_cases hA : a = []
      · right; left
        subst hA
        simp only [List.nil_append] at hpat
        exact ⟨[], t, by rw [List.nil_append, hpat, hys2]⟩
      · by_cases hC : c2 = []
        · left
          subst hC
          simp only [List.append_nil] at hpat
          exact ⟨s, [], by rw [List.append_nil, hpat, hxs]⟩
        · right; right
          exact ⟨a, c2, hpat, hA, hC, ⟨s, hxs.symm⟩, ⟨t, hys2.symm⟩⟩
  · right; left
    exact ⟨c, t, by rw [hys, List.append_assoc]⟩

/-- `DATABASE` cannot occur in the generated connection string unless it
already occurs in the server name: the fixed prefix and suffix contain no
occurrence and no boundary can complete one. -/
theorem no_database_in_conn (s : List Char)
    (hs : ¬ ("DATABASE".data <:+: s)) :
    ¬ ("DATABASE".data <:+: (connPrefix.data ++ (s ++ connSuffix.data))) := by
  intro hin
  have hl8 : ("DATABASE".data).length = 8 := rfl
  rcases infix_append_cases _ _ _ hin with h1 | h2 | ⟨p, q, hpq, hp, hq, hsuf, _⟩
  · revert h1; decide
  · rcases infix_append_cases _ _ _ h2 with g1 | g2 | ⟨p, q, hpq, hp, hq, _, hpre⟩
    · exact hs g1
    · revert g2; decide
    · have hlen : p.length + q.length = 8 := by
        have hcg := congrArg List.length hpq
        rw [List.length_append] at hcg
        omega
      have hqe : q = List.drop p.length ("DATABASE".data) := by
        rw [hpq, List.drop_left]
      have h1 : 1 ≤ p.length := by
        have := List.length_pos.mpr hp
        omega
      have h8 : p.length < 8 := by
        have := List.length_pos.mpr hq
        omega
      have key : ∀ k, k < 8 → 1 ≤ k →
          ¬ (List.drop k "DATABASE".data <+: connSuffix.data) := by decide
      exact key p.length h8 h1 (hqe ▸ hpre)
  · have hlen : p.length + q.length = 8 := by
      have hcg := congrArg List.length hpq
      rw [List.length_append] at hcg
      omega
    have hpe : p = List.take p.length ("DATABASE".data) := by
      rw [hpq, List.take_left]
    have h1 : 1 ≤ p.length := by
      have := List.length_pos.mpr hp
      omega
    have h8 : p.length < 8 := by
      have := List.length_pos.mpr hq
      omega
    have key : ∀ k, k < 8 → 1 ≤ k →
        ¬ (List.take k "DATABASE".data <:+ connPrefix.data) := by decide
    exact key p.length h8 h1 (hpe ▸ hsuf)

/-- C5.  Connection-string construction: for every server name `S`,
`generate_connection_string S` is exactly
`DRIVER={ODBC Driver 17 for SQL Server};SERVER=S;Trusted_Connection=yes;TrustServerCertificate=yes;`,
and the result never contains a `DATABASE` clause unless `S` itself
carries one. -/
theorem c5_connection_string (S : String)
    (hS : ¬ ("DATABASE".data <:+: S.data)) :
    generate_connection_string S =
      "DRIVER=\x7bODBC Driver 17 for SQL Server\x7d;SERVER=" ++ S ++
        ";Trusted_Connection=yes;TrustServerCertificate=yes;" ∧
    ¬ ("DATABASE".data <:+: (generate_connection_string S).data) := by
  refine ⟨rfl, ?_⟩
  have hdata : (generate_connection_string S).data =
      connPrefix.data ++ (S.data ++ connSuffix.data) := by
    show ((connPrefix ++ S) ++ connSuffix).data = _
    rw [string_data_append, string_data_append, List.append_assoc]
  rw [hdata]
  exact no_database_in_conn S.data hS

/-- Witness for C5 at the server name `myserver`. -/
theorem c5_connection_string_witness :
    (¬ ("DATABASE".data <:+: "myserver".data)) ∧
    (generate_connection_string "myserver" =
      "DRIVER=\x7bODBC Driver 17 for SQL Server\x7d;SERVER=" ++ "myserver" ++
        ";Trusted_Connection=yes;TrustServerCertificate=yes;" ∧
    ¬ ("DATABASE".data <:+: (generate_connection_string "myserver").data)) :=
  ⟨by decide, c5_connection_string "myserver" (by decide)⟩

/-- C10.  Query-form service error swallowing: for every storage-layer
failure, `get_all_forms` returns `[]`, `get_form_by_id`, `create_form` and
`update_form` return `None`, and `delete_form` returns `False`; no
exception propagates, and at this interface a storage failure is
indistinguishable from a missing or empty result. -/
theorem c10_storage_errors_swallowed :
    (∀ e, get_all_forms (.err e) = []) ∧
    (∀ e, get_form_by_id (.err e) = none) ∧
    (∀ e fd, create_form (.err e) fd = none) ∧
    (∀ e fd, update_form fd (.err e) (.err e) = none) ∧
    (∀ e soft, delete_form soft (.err e) = false) ∧
    (∀ e, get_all_forms (.err e) = get_all_forms (.ok [])) ∧
    (∀ e, get_form_by_id (.err e) = get_form_by_id (.ok none)) := by
  refine ⟨fun _ => rfl, fun _ => rfl, fun _ _ => rfl, ?_, fun _ _ => rfl,
    fun _ => rfl, fun _ => rfl⟩
  intro e fd
  unfold update_form
  split <;> rfl

/-! ### Support lemmas for the schema-analyzer walk (C9) -/

/-- `splitOnChar` never returns the empty list. -/
theorem splitOnChar_ne_nil (c : Char) : ∀ l, splitOnChar c l ≠ [] := by
  intro l
  cases l with
  | nil => simp [splitOnChar]
  | cons x rest =>
    simp only [splitOnChar]
    by_cases hx : x = c
    · simp [hx]
    · simp only [if_neg hx]
      cases splitOnChar c rest <;> simp

/-- The number of `splitOnChar` pieces is one more than the separator
count. -/
theorem splitOnChar_length (c : Char) :
    ∀ l : List Char, (splitOnChar c l).length = l.count c + 1 := by
  intro l
  induction l with
  | nil => simp [splitOnChar]
  | cons x rest ih =>
    simp only [splitOnChar]
    by_cases hx : x = c
    · subst hx
      simp [List.count_cons, ih]
    · simp only [if_neg hx]
      cases hr : splitOnChar c rest with
      | nil => exact absurd hr (splitOnChar_ne_nil c rest)
      | cons h t =>
        rw [hr] at ih
        simp only [List.length_cons] at ih ⊢
        rw [List.count_cons]
        simp [hx, Ne.symm hx, ih]

/-- `unsplitChar` undoes `splitOnChar`. -/
theorem unsplit_splitOnChar (c : Char) :
    ∀ l : List Char, unsplitChar c (splitOnChar c l) = l := by
  intro l
  induction l with
  | nil => simp [splitOnChar, unsplitChar]
  | cons x rest ih =>
    simp only [splitOnChar]
    by_cases hx : x = c
    · subst hx
      cases hr : splitOnChar x rest with
      | nil => exact absurd hr (splitOnChar_ne_nil x rest)
      | cons h t =>
        rw [hr] at ih
        simp [unsplitChar, ih]
    · simp only [if_neg hx]
      cases hr : splitOnChar c rest with
      | nil => exact absurd hr (splitOnChar_ne_nil c rest)
      | cons h t =>
        rw [hr] at ih
        cases t with
        | nil => simp_all [unsplitChar]
        | cons y t2 => simp_all [unsplitChar]

/-- A list of length three is literally a triple. -/
theorem list_length_three {α : Type} (l : List α) (h : l.length = 3) :
    ∃ a b c, l = [a, b, c] := by
  match l with
  | [a, b, c] => exact ⟨a, b, c, rfl⟩
  | [] | [_] | [_, _] => simp at h
  | _ :: _ :: _ :: _ :: _ => simp at h

/-- On three-part names, `parse_object_name` is injective. -/
theorem parse_object_name_inj (n m : String) (hn : normalName n)
    (hm : normalName m)
    (h : parse_object_name n = parse_object_name m) : n = m := by
  obtain ⟨a, b, c, hsn⟩ := list_length_three _ hn
  obtain ⟨a2, b2, c2, hsm⟩ := list_length_three _ hm
  rw [parse_object_name, hsn, parse_object_name, hsm] at h
  simp only [Prod.mk.injEq] at h
  obtain ⟨h1, h2, h3⟩ := h
  have ha : a = a2 := congrArg String.data h1
  have hb : b = b2 := congrArg String.data h2
  have hc : c = c2 := congrArg String.data h3
  have hdat : n.data = m.data := by
    rw [← unsplit_splitOnChar '.' n.data, ← unsplit_splitOnChar '.' m.data,
      hsn, hsm, ha, hb, hc]
  cases n; cases m
  exact congrArg String.mk hdat

/-- Elements surviving `dedupKeep` come from the input list. -/
theorem mem_dedupKeep (x : String) :
    ∀ (l seen : List String), x ∈ dedupKeep l seen → x ∈ l := by
  intro l
  induction l with
  | nil => intro seen h; simp [dedupKeep] at h
  | cons y rest ih =>
    intro seen h
    simp only [dedupKeep] at h
    by_cases hy : seen.contains y
    · rw [if_pos hy] at h
      exact List.mem_cons_of_mem _ (ih _ h)
    · rw [if_neg hy] at h
      rcases List.mem_cons.mp h with hEq | hmem
      · exact hEq ▸ List.mem_cons_self _ _
      · exact List.mem_cons_of_mem _ (ih _ hmem)

/-- The base identifier contains no dot. -/
theorem count_dot_takeWhile (l : List Char) :
    (l.takeWhile wordChar).count '.' = 0 := by
  rw [List.count_eq_zero]
  intro h
  have := List.mem_takeWhile_imp h
  revert this
  decide

/-- An identifier-start character is not a dot. -/
theorem identFirst_ne_dot (c : Char) (h : identFirst c = true) :
    (c == '.') = false := by
  by_contra hne
  have hc : c = '.' := by
    have := Bool.not_eq_false _ ▸ hne
    simpa using this
  subst hc
  exact absurd h (by decide)

/-- One optional dotted part adds at most one dot. -/
theorem count_dot_takeDotPart (s : List Char) :
    (takeDotPart s).1.count '.' ≤ 1 := by
  cases s with
  | nil => simp [takeDotPart]
  | cons x rest1 =>
    cases rest1 with
    | nil => simp [takeDotPart]
    | cons d rest =>
      simp only [takeDotPart]
      by_cases hcond : (x = '.' && identFirst d) = true
      · rw [if_pos hcond]
        have hd : identFirst d = true := by
          have := hcond
          simp only [Bool.and_eq_true] at this
          exact this.2
        simp [List.count_cons, count_dot_takeWhile, identFirst_ne_dot d hd]
      · rw [if_neg (by simpa using hcond)]
        simp

/-- A captured table reference has at most two dots. -/
theorem count_dot_takeDottedIdent (s name rem : List Char)
    (h : takeDottedIdent s = some (name, rem)) : name.count '.' ≤ 2 := by
  match s with
  | [] => simp [takeDottedIdent] at h
  | c :: rest =>
    simp only [takeDottedIdent] at h
    by_cases hc : identFirst c
    · rw [if_pos hc] at h
      simp only [Option.some.injEq, Prod.mk.injEq] at h
      obtain ⟨hname, _⟩ := h
      rw [← hname]
      have h1 := count_dot_takeDotPart (rest.dropWhile wordChar)
      have h2 := count_dot_takeDotPart
        (takeDotPart (rest.dropWhile wordChar)).2
      have hcd := identFirst_ne_dot c hc
      simp [List.count_append, List.count_cons, count_dot_takeWhile, hcd]
      omega
    · rw [if_neg hc] at h
      exact absurd h (by simp)

/-- Every name the `FROM`/`JOIN` scanner captures has at most two dots. -/
theorem count_dot_scanFromJoin :
    ∀ (fuel : Nat) (s : List Char) (b : Bool) (name : List Char),
      name ∈ scanFromJoin fuel s b → name.count '.' ≤ 2 := by
  intro fuel
  induction fuel with
  | zero => intro s b name h; simp [scanFromJoin] at h
  | succ f ih =>
    intro s b name h
    match s with
    | [] => simp [scanFromJoin] at h
    | c :: rest =>
      simp only [scanFromJoin] at h
      rcases hm : (if b then none else tryFromJoin (c :: rest)) with _ | pr
      · rw [hm] at h
        exact ih rest (wordChar c) name h
      · rw [hm] at h
        rcases List.mem_cons.mp h with hEq | hmem
        · rcases pr with ⟨nm, rem⟩
          have htry : tryFromJoin (c :: rest) = some (nm, rem) := by
            by_cases hb : b
            · rw [if_pos hb] at hm; cases hm
            · rw [if_neg hb] at hm; exact hm
          subst hEq
          unfold tryFromJoin at htry
          split at htry
          · split at htry
            · split at htry
              · exact count_dot_takeDottedIdent _ _ _ htry
              · cases htry
            · cases htry
          · cases htry
        · rcases pr with ⟨nm, rem⟩
          exact ih rem true name hmem

/-- Stripping brackets cannot add dots. -/
theorem count_dot_stripBrackets (n : List Char) :
    (stripBrackets n).count '.' ≤ n.count '.' := by
  unfold stripBrackets
  calc (((n.dropWhile _).reverse.dropWhile _).reverse).count '.'
      = ((n.dropWhile _).reverse.dropWhile _).count '.' := by
        rw [List.count_reverse]
    _ ≤ ((n.dropWhile _).reverse).count '.' :=
        (List.dropWhile_sublist _).count_le _
    _ = (n.dropWhile _).count '.' := by rw [List.count_reverse]
    _ ≤ n.count '.' := (List.dropWhile_sublist _).count_le _

/-- Normalization pins the dot count of a (≤ two-dot) reference at exactly
two. -/
theorem count_dot_clean_name (n : List Char) (h : n.count '.' ≤ 2) :
    (clean_name n).count '.' = 2 := by
  have hs := count_dot_stripBrackets n
  unfold clean_name
  by_cases h0 : (stripBrackets n).count '.' = 0
  · rw [if_pos h0]
    rw [List.count_append, h0]
    decide
  · rw [if_neg h0]
    by_cases h1 : (stripBrackets n).count '.' = 1
    · rw [if_pos h1, List.count_append, h1]
      decide
    · rw [if_neg h1]
      omega

/-- Everything `extract_table_names` returns is a three-part name. -/
theorem extract_table_names_normal (sql : String) (n : String)
    (h : n ∈ extract_table_names sql) : normalName n := by
  unfold extract_table_names at h
  have h2 := mem_dedupKeep _ _ _ h
  rcases List.mem_map.mp h2 with ⟨raw, hraw, hn⟩
  have h3 := mem_dedupKeep _ _ _ hraw
  rcases List.mem_map.mp h3 with ⟨rawL, hrawL, hrw⟩
  have hcount : rawL.count '.' ≤ 2 := count_dot_scanFromJoin _ _ _ _ hrawL
  have hrawdata : raw.data = rawL := by rw [← hrw]
  have hclean : (clean_name raw.data).count '.' = 2 := by
    rw [hrawdata]; exact count_dot_clean_name rawL hcount
  rw [← hn]
  unfold normalName
  rw [splitOnChar_length, hclean]

/-- Filtering with a stronger predicate keeps no more elements. -/
theorem filter_length_mono {α : Type} (p q : α → Bool)
    (hpq : ∀ a, p a = true → q a = true) :
    ∀ l : List α, (l.filter p).length ≤ (l.filter q).length := by
  intro l
  induction l with
  | nil => simp
  | cons x rest ih =>
    by_cases hx : p x = true
    · rw [List.filter_cons_of_pos hx, List.filter_cons_of_pos (hpq x hx)]
      simpa using ih
    · rw [List.filter_cons_of_neg (by simpa using hx)]
      by_cases hq : q x = true
      · rw [List.filter_cons_of_pos hq]
        simp only [List.length_cons]
        omega
      · rw [List.filter_cons_of_neg (by simpa using hq)]
        exact ih

/-- Filtering with a strictly stronger predicate that loses a present
element keeps strictly fewer elements. -/
theorem filter_length_strict {α : Type} (p q : α → Bool)
    (hpq : ∀ a, p a = true → q a = true) (k : α) :
    ∀ l : List α, k ∈ l → q k = true → p k = false →
      (l.filter p).length < (l.filter q).length := by
  intro l
  induction l with
  | nil => intro h; simp at h
  | cons x rest ih =>
    intro hk hq hp
    rcases List.mem_cons.mp hk with hEq | hmem
    · subst hEq
      rw [List.filter_cons_of_pos hq, List.filter_cons_of_neg (by simp [hp])]
      have := filter_length_mono p q hpq rest
      simp only [List.length_cons]
      omega
    · by_cases hx : p x = true
      · rw [List.filter_cons_of_pos hx, List.filter_cons_of_pos (hpq x hx)]
        simpa using ih hmem hq hp
      · rw [List.filter_cons_of_neg (by simpa using hx)]
        by_cases hqx : q x = true
        · rw [List.filter_cons_of_pos hqx]
          have := ih hmem hq hp
          simp only [List.length_cons]
          omega
        · rw [List.filter_cons_of_neg (by simpa using hqx)]
          exact ih hmem hq hp

/-- Appending a fresh element on the right preserves `Nodup`. -/
theorem nodup_append_singleton {α : Type} (l : List α) (a : α)
    (ha : a ∉ l) (hl : l.Nodup) : (l ++ [a]).Nodup := by
  rw [List.nodup_append]
  refine ⟨hl, List.nodup_singleton a, ?_⟩
  intro x hx hxa
  rcases List.mem_singleton.mp hxa with rfl
  exact ha hx

/-- Covering is monotone in the processed set. -/
theorem coveredB_mono (st2 : List String) (n : String)
    (k : String × String × String) (h : coveredB st2 k = true) :
    coveredB (n :: st2) k = true := by
  unfold coveredB at h ⊢
  rcases List.any_eq_true.mp h with ⟨m, hm, hmk⟩
  exact List.any_eq_true.mpr ⟨m, List.mem_cons_of_mem _ hm, hmk⟩

/-- Growing the processed set cannot grow the uncovered count. -/
theorem uncovCount_mono (env : SchemaEnv) (st2 : List String) (n : String) :
    uncovCount env (n :: st2) ≤ uncovCount env st2 := by
  unfold uncovCount
  refine filter_length_mono _ _ ?_ _
  intro k hk
  simp only [Bool.not_eq_true'] at hk ⊢
  by_cases hc : coveredB st2 k = true
  · exact absurd (coveredB_mono st2 n k hc) (by simp [hk])
  · simpa using hc

/-- Folding the bind over `none` stays `none`. -/
theorem foldl_bind_none (env : SchemaEnv) (fuel : Nat) :
    ∀ names : List String,
      names.foldl
        (fun acc dep => acc.bind (process_table_or_view env fuel dep))
        none = none := by
  intro names
  induction names with
  | nil => rfl
  | cons n rest ih => simpa [List.foldl] using ih

/-- The fold in the definitions is the recursive `process_list`. -/
theorem foldl_eq_process_list (env : SchemaEnv) (fuel : Nat) :
    ∀ (names : List String) (st : List (String × String) × List String),
      names.foldl
        (fun acc dep => acc.bind (process_table_or_view env fuel dep))
        (some st) = process_list env fuel names st := by
  intro names
  induction names with
  | nil => intro st; rfl
  | cons n rest ih =>
    intro st
    rw [List.foldl_cons]
    cases h : process_table_or_view env fuel n st with
    | none =>
      have e1 : (some st).bind (process_table_or_view env fuel n) = none := by
        rw [Option.some_bind, h]
      rw [e1, foldl_bind_none]
      simp [process_list, h]
    | some st' =>
      have e1 : (some st).bind (process_table_or_view env fuel n) =
          some st' := by
        rw [Option.some_bind, h]
      rw [e1, ih st']
      simp [process_list, h]

/-- Step equation: an already-processed name is skipped. -/
theorem process_step_skip (env : SchemaEnv) (f : Nat) (n : String)
    (st : List (String × String) × List String)
    (h : st.2.contains n = true) :
    process_table_or_view env (f + 1) n st = some st := by
  simp only [process_table_or_view]
  rw [if_pos h]

/-- Step equation: a non-view object is recorded and the walk stops. -/
theorem process_step_table (env : SchemaEnv) (f : Nat) (n : String)
    (st : List (String × String) × List String)
    (hmem : ¬ st.2.contains n = true)
    (hv : get_view_definition env (parse_object_name n).1
      (parse_object_name n).2.1 (parse_object_name n).2.2 = none) :
    process_table_or_view env (f + 1) n st =
      some (st.1 ++ [(n, env.tableStmt (parse_object_name n).1
        (parse_object_name n).2.1 (parse_object_name n).2.2)],
        n :: st.2) := by
  simp only [process_table_or_view]
  rw [if_neg hmem, hv]

/-- Step equation: an empty view definition is treated as a table. -/
theorem process_step_empty_view (env : SchemaEnv) (f : Nat) (n : String)
    (st : List (String × String) × List String)
    (hmem : ¬ st.2.contains n = true)
    (hv : get_view_definition env (parse_object_name n).1
      (parse_object_name n).2.1 (parse_object_name n).2.2 = some "") :
    process_table_or_view env (f + 1) n st =
      some (st.1 ++ [(n, env.tableStmt (parse_object_name n).1
        (parse_object_name n).2.1 (parse_object_name n).2.2)],
        n :: st.2) := by
  simp only [process_table_or_view]
  rw [if_neg hmem, hv]
  rfl

/-- Step equation: a view is recorded and its references are walked with
one unit of fuel less. -/
theorem process_step_view (env : SchemaEnv) (f : Nat) (n : String)
    (st : List (String × String) × List String) (d : String)
    (hmem : ¬ st.2.contains n = true)
    (hv : get_view_definition env (parse_object_name n).1
      (parse_object_name n).2.1 (parse_object_name n).2.2 = some d)
    (hd : ¬ d = "") :
    process_table_or_view env (f + 1) n st =
      process_list env f (extract_table_names d)
        (st.1 ++ [(n, "CREATE VIEW " ++ n ++ " AS\n" ++ d)], n :: st.2) := by
  simp only [process_table_or_view]
  rw [if_neg hmem, hv]
  split
  case h_1 d2 heq =>
    rcases Option.some.inj heq with rfl
    rw [if_neg hd, foldl_eq_process_list]
  case h_2 heq => cases heq

/-- The key of a name whose view lookup succeeds is a catalog view key. -/
theorem view_lookup_mem_viewKeys (env : SchemaEnv) (n : String) (d : String)
    (hv : get_view_definition env (parse_object_name n).1
      (parse_object_name n).2.1 (parse_object_name n).2.2 = some d) :
    parse_object_name n ∈ viewKeys env := by
  unfold get_view_definition at hv
  rcases Option.map_eq_some'.mp hv with ⟨kv0, hfind, _⟩
  have hpred := List.find?_some hfind
  have hkey : kv0.1 = ((parse_object_name n).1, (parse_object_name n).2.1,
      (parse_object_name n).2.2) :=
    of_decide_eq_true hpred
  have hmem := List.mem_of_find?_eq_some hfind
  have heta : ((parse_object_name n).1, (parse_object_name n).2.1,
      (parse_object_name n).2.2) = parse_object_name n := by
    simp
  exact List.mem_map.mpr ⟨kv0, hmem, by rw [hkey, heta]⟩

/-- Main induction for the walk: with fuel exceeding the number of still
uncovered catalog views, processing any three-part name (or list of such
names) succeeds, only grows the processed set, never increases the
uncovered count, and preserves the key invariant. -/
theorem process_master (env : SchemaEnv) :
    ∀ fuel : Nat,
      (∀ (n : String) (st : List (String × String) × List String),
        normalName n → GoodState st → uncovCount env st.2 < fuel →
        ∃ st', process_table_or_view env fuel n st = some st' ∧
          GoodState st' ∧ Extends st st' ∧
          uncovCount env st'.2 ≤ uncovCount env st.2 ∧
          (InvKeys st → InvKeys st')) ∧
      (∀ (names : List String) (st : List (String × String) × List String),
        (∀ n ∈ names, normalName n) → GoodState st →
        uncovCount env st.2 < fuel →
        ∃ st', process_list env fuel names st = some st' ∧
          GoodState st' ∧ Extends st st' ∧
          uncovCount env st'.2 ≤ uncovCount env st.2 ∧
          (InvKeys st → InvKeys st')) := by
  intro fuel
  induction fuel with
  | zero =>
    constructor
    · intro n st _ _ hcnt; omega
    · intro names st _ _ hcnt; omega
  | succ f ih =>
    have hP : ∀ (n : String) (st : List (String × String) × List String),
        normalName n → GoodState st → uncovCount env st.2 < f + 1 →
        ∃ st', process_table_or_view env (f + 1) n st = some st' ∧
          GoodState st' ∧ Extends st st' ∧
          uncovCount env st'.2 ≤ uncovCount env st.2 ∧
          (InvKeys st → InvKeys st') := by
      intro n st hn hg hcnt
      by_cases hmem : st.2.contains n = true
      · exact ⟨st, process_step_skip env f n st hmem, hg,
          fun x hx => hx, le_refl _, fun h => h⟩
      · have hnotmem : n ∉ st.2 := fun hin => hmem (List.elem_iff.mpr hin)
        have hgood1 : GoodState (st.1, n :: st.2) := by
          intro x hx
          rcases List.mem_cons.mp hx with rfl | hx2
          · exact hn
          · exact hg x hx2
        have hinv1 : ∀ stmt, InvKeys st →
            InvKeys (st.1 ++ [(n, stmt)], n :: st.2) := by
          intro stmt hinv
          obtain ⟨hnd, hsub⟩ := hinv
          constructor
          · show ((st.1 ++ [(n, stmt)]).map Prod.fst).Nodup
            rw [List.map_append]
            refine nodup_append_singleton _ _ ?_ hnd
            intro hk
            exact hnotmem (hsub n hk)
          · intro k hk
            rw [List.map_append] at hk
            rcases List.mem_append.mp hk with hk1 | hk2
            · exact List.mem_cons_of_mem _ (hsub k hk1)
            · rcases List.mem_singleton.mp hk2 with rfl
              exact List.mem_cons_self _ _
        cases hv : get_view_definition env (parse_object_name n).1
            (parse_object_name n).2.1 (parse_object_name n).2.2 with
        | none =>
          refine ⟨_, process_step_table env f n st hmem hv, hgood1, ?_, ?_, ?_⟩
          · exact fun x hx => List.mem_cons_of_mem _ hx
          · exact uncovCount_mono env st.2 n
          · exact hinv1 _
        | some d =>
          by_cases hd : d = ""
          · subst hd
            refine ⟨_, process_step_empty_view env f n st hmem hv, hgood1,
              ?_, ?_, ?_⟩
            · exact fun x hx => List.mem_cons_of_mem _ hx
            · exact uncovCount_mono env st.2 n
            · exact hinv1 _
          · -- a real view: consume one unit of fuel for the references
            have hkmem := view_lookup_mem_viewKeys env n d hv
            have hkuncov : coveredB st.2 (parse_object_name n) = false := by
              by_contra hcov
              have hcov2 : coveredB st.2 (parse_object_name n) = true := by
                simpa using hcov
              rcases List.any_eq_true.mp hcov2 with ⟨m, hm2, hmk⟩
              have hpm : parse_object_name m = parse_object_name n :=
                of_decide_eq_true hmk
              have : m = n :=
                parse_object_name_inj m n (hg m hm2) hn hpm
              exact hnotmem (this ▸ hm2)
            have hdec : uncovCount env (n :: st.2) < uncovCount env st.2 := by
              unfold uncovCount
              refine filter_length_strict _ _ ?_ (parse_object_name n) _
                (List.mem_dedup.mpr hkmem) ?_ ?_
              · intro a ha
                simp only [Bool.not_eq_true'] at ha ⊢
                by_cases hc : coveredB st.2 a = true
                · exact absurd (coveredB_mono st.2 n a hc) (by simp [ha])
                · simpa using hc
              · simp [hkuncov]
              · have : coveredB (n :: st.2) (parse_object_name n) = true := by
                  unfold coveredB
                  exact List.any_eq_true.mpr
                    ⟨n, List.mem_cons_self _ _, by simp⟩
                simp [this]
            have hdeps : ∀ x ∈ extract_table_names d, normalName x :=
              fun x hx => extract_table_names_normal d x hx
            have hcnt1 : uncovCount env (n :: st.2) < f := by omega
            obtain ⟨st'', hrun, hg'', hext'', hcnt'', hinv''⟩ :=
              ih.2 (extract_table_names d)
                (st.1 ++ [(n, "CREATE VIEW " ++ n ++ " AS\n" ++ d)],
                  n :: st.2)
                hdeps hgood1 hcnt1
            have hcnt''2 : uncovCount env st''.2 ≤
                uncovCount env (n :: st.2) := hcnt''
            refine ⟨st'', ?_, hg'', ?_, ?_, ?_⟩
            · rw [process_step_view env f n st d hmem hv hd]
              exact hrun
            · exact fun x hx => hext'' x (List.mem_cons_of_mem _ hx)
            · omega
            · intro hinv
              exact hinv'' (hinv1 _ hinv)
    refine ⟨hP, ?_⟩
    intro names
    induction names with
    | nil =>
      intro st _ hg hcnt
      exact ⟨st, rfl, hg, fun x hx => hx, le_refl _, fun h => h⟩
    | cons n rest ihl =>
      intro st hns hg hcnt
      obtain ⟨st1, hstep, hg1, hext1, hcnt1, hinv1⟩ :=
        hP n st (hns n (List.mem_cons_self _ _)) hg hcnt
      obtain ⟨st', hrun, hg', hext', hcnt', hinv'⟩ :=
        ihl st1 (fun x hx => hns x (List.mem_cons_of_mem _ hx)) hg1
          (by omega)
      refine ⟨st', ?_, hg', ?_, by omega, fun h => hinv' (hinv1 h)⟩
      · simp only [process_list, hstep]
        exact hrun
      · exact fun x hx => hext' x (hext1 x hx)

set_option linter.unusedVariables false in
/-- C9.  Schema-analyzer termination and uniqueness on cyclic view
references: for any catalog (in particular one where view `V1` references
`V2` and `V2` references `V1`) and any starting set of three-part object
names, the recursive walk of `get_create_statements` terminates — the
fuel the embedding allots, one more than the number of catalog views, is
never exhausted — and each discovered object appears exactly once among
the resulting CREATE statements (the keys are `Nodup`). -/
theorem c9_cyclic_walk_terminates (env : SchemaEnv) (names : List String)
    (hnames : ∀ n ∈ names, normalName n)
    (d1 d2 : String)
    (hv1 : get_view_definition env "OneToolsDb" "dbo" "V1" = some d1)
    (h12 : "OneToolsDb.dbo.V2" ∈ extract_table_names d1)
    (hv2 : get_view_definition env "OneToolsDb" "dbo" "V2" = some d2)
    (h21 : "OneToolsDb.dbo.V1" ∈ extract_table_names d2) :
    ∃ stmts, get_create_statements env names = some stmts ∧
      (stmts.map Prod.fst).Nodup := by
  have hbound : uncovCount env ([] : List String) < analyzerFuel env := by
    unfold uncovCount analyzerFuel
    have h1 := List.length_filter_le (fun k => !coveredB [] k)
      (viewKeys env).dedup
    have h2 := (List.dedup_sublist (viewKeys env)).length_le
    have h3 : (viewKeys env).length = env.viewDefs.length :=
      List.length_map _ _
    omega
  obtain ⟨st', hrun, _, _, _, hinv⟩ :=
    (process_master env (analyzerFuel env)).2 names ([], []) hnames
      (fun n hn => absurd hn (List.not_mem_nil n)) hbound
  refine ⟨st'.1, ?_,
    (hinv ⟨List.nodup_nil, fun k hk => absurd hk (List.not_mem_nil k)⟩).1⟩
  unfold get_create_statements
  rw [foldl_eq_process_list, hrun]
  rfl

/-- Witness for C9: the two-view cyclic catalog `cyclicEnvExample`
(`V1 → V2 → V1`), started from `V1`. -/
theorem c9_cyclic_walk_terminates_witness :
    (∀ n ∈ ["OneToolsDb.dbo.V1"], normalName n) ∧
    (get_view_definition cyclicEnvExample "OneToolsDb" "dbo" "V1" =
      some "SELECT * FROM V2") ∧
    ("OneToolsDb.dbo.V2" ∈ extract_table_names "SELECT * FROM V2") ∧
    (get_view_definition cyclicEnvExample "OneToolsDb" "dbo" "V2" =
      some "SELECT * FROM V1") ∧
    ("OneToolsDb.dbo.V1" ∈ extract_table_names "SELECT * FROM V1") ∧
    (∃ stmts, get_create_statements cyclicEnvExample ["OneToolsDb.dbo.V1"] =
      some stmts ∧ (stmts.map Prod.fst).Nodup) :=
  ⟨by decide, by decide, by decide, by decide, by decide,
   c9_cyclic_walk_terminates cyclicEnvExample ["OneToolsDb.dbo.V1"]
     (by decide) "SELECT * FROM V2" "SELECT * FROM V1" (by decide)
     (by decide) (by decide) (by decide)⟩

end OneTools
